import Mathlib

/-!
Verification of the AR-Poster title-resolution pipeline.

This file is a shallow embedding of the two algorithmic components of the
repository:

* the block-geometry clustering scorer of `server.js`
  (`extractGenericTitle`, `identifyTitleBySpatialLogic`,
  `calculateImageBounds`, `calculateBlockMetrics`, the `score*` helpers,
  `groupAdjacentBlocks`, `areBlocksAdjacent`, `selectBestGroup`,
  `combineRelatedTitleParts`, `shouldCombineGroups`,
  `isKeyboardRelatedText`, `applyGenericCleanup`), and
* the fuzzy candidate ranker of `src/services/TMDbService.js`
  (`cleanTitle`, `findBestMatch`, `calculateSimilarity`).

Modelling conventions:
* JavaScript strings are `List Char`; the regular expressions of the source
  are ASCII character classes, embedded as decidable character predicates.
* JavaScript numbers are embedded exactly, as rationals extended with the
  special values `Infinity`, `-Infinity` and `NaN` (the type `JSNum`);
  IEEE-754 rounding is outside the scope of the embedding.
* `Array.prototype.sort` is stable (ES2019); a comparator result that is
  `NaN` counts as a tie (`SortCompare` maps `NaN` to `+0`). It is embedded
  as a stable insertion sort driven by the comparator.
* A thrown `TypeError` (reading a property of `null`) is embedded as
  `Except.error ()`.
-/

/-- The JavaScript whitespace class `\s`, restricted to the ASCII whitespace
    characters; the pipeline's data is ASCII. -/
def isJsSpace (c : Char) : Bool :=
  c = ' ' || c = '\t' || c = '\n' || c = '\r' || c = '\x0b' || c = '\x0c'

/-- The JavaScript word-character class `\w`: ASCII letters, digits and
    underscore. -/
def isWordChar (c : Char) : Bool :=
  c.isAlpha || c.isDigit || c = '_'

/-- `String.prototype.toUpperCase`, on the ASCII range. -/
def jsToUpper (l : List Char) : List Char := l.map Char.toUpper

/-- `String.prototype.toLowerCase`, on the ASCII range. -/
def jsToLower (l : List Char) : List Char := l.map Char.toLower

/-- `String.prototype.trim`: strip whitespace from both ends. -/
def jsTrim (l : List Char) : List Char :=
  ((l.dropWhile isJsSpace).reverse.dropWhile isJsSpace).reverse

/-- Worker for `replace(/\s+/g, ' ')`: `prev` records whether the previous
    character was part of a whitespace run already replaced by `' '`. -/
def collapseAux (prev : Bool) : List Char → List Char
  | [] => []
  | c :: cs =>
    if isJsSpace c then
      if prev then collapseAux true cs else ' ' :: collapseAux true cs
    else c :: collapseAux false cs

/-- `replace(/\s+/g, ' ')`: every maximal whitespace run becomes one space. -/
def collapseWS (l : List Char) : List Char := collapseAux false l

/-- Worker for `split(/\s+/)`: `inWord` is false while inside a separator
    run that has already emitted its piece boundary. -/
def splitWSAux (inWord : Bool) (cur : List Char) : List Char → List (List Char)
  | [] => [cur.reverse]
  | c :: cs =>
    if isJsSpace c then
      if inWord then cur.reverse :: splitWSAux false [] cs
      else splitWSAux false [] cs
    else splitWSAux true (c :: cur) cs

/-- `String.prototype.split(/\s+/)`: pieces between maximal whitespace runs,
    with empty pieces at the boundaries exactly as in JavaScript
    (`" a ".split(/\s+/)` is `["", "a", ""]`). -/
def jsSplitWS (l : List Char) : List (List Char) := splitWSAux true [] l

/-- Worker for `replace(/\s*:\s*/g, ': ')`: `pending` counts whitespace not
    yet committed; `afterColon` records that the pending whitespace is the
    trailing `\s*` of a match just replaced (and is therefore dropped). -/
def normColonAux (pending : Nat) (afterColon : Bool) : List Char → List Char
  | [] => if afterColon then [] else List.replicate pending ' '
  | c :: cs =>
    if isJsSpace c then normColonAux (pending + 1) afterColon cs
    else if c = ':' then ':' :: ' ' :: normColonAux 0 true cs
    else (if afterColon then [] else List.replicate pending ' ') ++
      c :: normColonAux 0 false cs

/-- `replace(/\s*:\s*/g, ': ')`, used when combining title parts. -/
def normColon (l : List Char) : List Char := normColonAux 0 false l

/-- `String.prototype.includes` for a fixed needle. -/
def containsSub (needle : List Char) : List Char → Bool
  | [] => needle.isEmpty
  | c :: cs => needle.isPrefixOf (c :: cs) || containsSub needle cs

/-- JavaScript numbers as used by the pipeline: exact rationals extended
    with `Infinity`, `-Infinity` and `NaN`. -/
inductive JSNum where
  | fin : ℚ → JSNum
  | inf : JSNum
  | ninf : JSNum
  | nan : JSNum
deriving DecidableEq

namespace JSNum

/-- JavaScript addition. -/
def add : JSNum → JSNum → JSNum
  | nan, _ => nan
  | _, nan => nan
  | fin a, fin b => fin (a + b)
  | fin _, inf => inf
  | fin _, ninf => ninf
  | inf, fin _ => inf
  | inf, inf => inf
  | inf, ninf => nan
  | ninf, fin _ => ninf
  | ninf, inf => nan
  | ninf, ninf => ninf

/-- JavaScript subtraction. -/
def sub : JSNum → JSNum → JSNum
  | nan, _ => nan
  | _, nan => nan
  | fin a, fin b => fin (a - b)
  | fin _, inf => ninf
  | fin _, ninf => inf
  | inf, fin _ => inf
  | inf, inf => nan
  | inf, ninf => inf
  | ninf, fin _ => ninf
  | ninf, inf => ninf
  | ninf, ninf => nan

/-- JavaScript multiplication (`Infinity * 0` is `NaN`). -/
def mul : JSNum → JSNum → JSNum
  | nan, _ => nan
  | _, nan => nan
  | fin a, fin b => fin (a * b)
  | fin a, inf => if 0 < a then inf else if a < 0 then ninf else nan
  | fin a, ninf => if 0 < a then ninf else if a < 0 then inf else nan
  | inf, fin b => if 0 < b then inf else if b < 0 then ninf else nan
  | ninf, fin b => if 0 < b then ninf else if b < 0 then inf else nan
  | inf, inf => inf
  | inf, ninf => ninf
  | ninf, inf => ninf
  | ninf, ninf => inf

/-- JavaScript division (division of a nonzero finite value by zero gives a
    signed infinity, `0 / 0` gives `NaN`; the sign of zero is not modelled,
    zero divisors count as `+0`). -/
def div : JSNum → JSNum → JSNum
  | nan, _ => nan
  | _, nan => nan
  | fin a, fin b =>
    if b = 0 then (if 0 < a then inf else if a < 0 then ninf else nan)
    else fin (a / b)
  | fin _, inf => fin 0
  | fin _, ninf => fin 0
  | inf, fin b => if b < 0 then ninf else inf
  | ninf, fin b => if b < 0 then inf else ninf
  | inf, inf => nan
  | inf, ninf => nan
  | ninf, inf => nan
  | ninf, ninf => nan

/-- `Math.min` (any `NaN` argument gives `NaN`). -/
def jmin : JSNum → JSNum → JSNum
  | nan, _ => nan
  | _, nan => nan
  | fin a, fin b => fin (min a b)
  | fin a, inf => fin a
  | fin _, ninf => ninf
  | inf, fin b => fin b
  | inf, inf => inf
  | inf, ninf => ninf
  | ninf, _ => ninf

/-- `Math.max` (any `NaN` argument gives `NaN`). -/
def jmax : JSNum → JSNum → JSNum
  | nan, _ => nan
  | _, nan => nan
  | fin a, fin b => fin (max a b)
  | fin _, inf => inf
  | fin a, ninf => fin a
  | inf, fin _ => inf
  | inf, inf => inf
  | inf, ninf => inf
  | ninf, fin b => fin b
  | ninf, inf => inf
  | ninf, ninf => ninf

/-- `Math.abs`. -/
def jabs : JSNum → JSNum
  | nan => nan
  | fin a => fin |a|
  | inf => inf
  | ninf => inf

/-- The JavaScript `<` comparison as a boolean: false whenever either side
    is `NaN`. -/
def ltb : JSNum → JSNum → Bool
  | nan, _ => false
  | _, nan => false
  | fin a, fin b => decide (a < b)
  | fin _, inf => true
  | fin _, ninf => false
  | inf, _ => false
  | ninf, ninf => false
  | ninf, fin _ => true
  | ninf, inf => true

/-- The JavaScript `>` comparison as a boolean. -/
def gtb (a b : JSNum) : Bool := ltb b a

/-- Whether the value is an ordinary (finite) number. -/
def isFin : JSNum → Bool
  | fin _ => true
  | _ => false

end JSNum

/-! ## The fuzzy candidate ranker (src/services/TMDbService.js) -/

/-- `cleanTitle` from TMDbService.js: non-word characters (other than
    whitespace, colon, hyphen) become spaces, whitespace runs collapse to a
    single space, the ends are trimmed, and the result is uppercased.  The
    `!query` guard returns the empty string on an empty (falsy) input. -/
def cleanTitle (query : List Char) : List Char :=
  if query.isEmpty then []
  else jsToUpper (jsTrim (collapseWS (query.map (fun c =>
    if isWordChar c || isJsSpace c || c = ':' || c = '-' then c else ' '))))

/-- One inner-loop pass of the edit-distance matrix fill in
    `calculateSimilarity`: `rest` are the remaining characters of `str1`,
    `prevRest` the remaining entries of the previous row, `diag` the entry
    `prev[j-1]` and `left` the entry just written in the current row.  The
    cell is `diag` when the characters agree and otherwise
    `min(diag+1, left+1, up+1)` exactly as in the source. -/
def levRowAux (b : Char) : List Char → List Nat → Nat → Nat → List Nat
  | [], _, _, _ => []
  | _ :: _, [], _, _ => []
  | a :: rest, p :: ps, diag, left =>
    (if b = a then diag else min (diag + 1) (min (left + 1) (p + 1))) ::
      levRowAux b rest ps p (if b = a then diag else min (diag + 1) (min (left + 1) (p + 1)))

/-- The outer loop of the matrix fill: one row per character of `str2`,
    starting from row 0 = `[0, 1, ..., str1.length]`; row `i+1` starts with
    the border entry `i+1`. -/
def levRows (s1 : List Char) (i : Nat) (prev : List Nat) : List Char → List Nat
  | [] => prev
  | b :: bs =>
    levRows s1 (i + 1) ((i + 1) :: levRowAux b s1 (prev.drop 1) (prev.headD 0) (i + 1)) bs

/-- `matrix[str2.length][str1.length]` of `calculateSimilarity`. -/
def levDist (s1 s2 : List Char) : Nat :=
  (levRows s1 0 (List.range (s1.length + 1)) s2).getD s1.length 0

/-- `calculateSimilarity` from TMDbService.js: 1 when both strings are
    empty, otherwise `(maxLength - matrix[len2][len1]) / maxLength`. -/
def calculateSimilarity (str1 str2 : List Char) : ℚ :=
  if max str1.length str2.length = 0 then 1
  else ((max str1.length str2.length : Nat) - (levDist str1 str2 : ℚ)) /
    ((max str1.length str2.length : Nat) : ℚ)

/-- A TMDb search result as consumed by `findBestMatch`; `original_title`,
    `popularity` and `vote_count` are optional fields whose absence reads as
    `undefined`. -/
structure MovieRecord where
  title : List Char
  original_title : Option (List Char)
  popularity : Option ℚ
  vote_count : Option ℚ
deriving DecidableEq

/-- Reading a possibly absent numeric field: an absent field is `undefined`,
    and any arithmetic on `undefined` yields `NaN`. -/
def optNum : Option ℚ → JSNum
  | some q => JSNum.fin q
  | none => JSNum.nan

/-- The per-record `totalScore` computed inside `findBestMatch`:
    `max(titleScore, originalTitleScore) * 0.7 + popularityScore * 0.2 +
    voteScore * 0.1`, where `popularityScore = min(popularity / 100, 1)` and
    `voteScore = min(vote_count / 1000, 1)`.  The `original_title ? _ : 0`
    ternary treats an absent (or empty, hence falsy) original title as 0. -/
def totalScore (searchTitle : List Char) (movie : MovieRecord) : JSNum :=
  let titleScore :=
    JSNum.fin (calculateSimilarity (jsToLower searchTitle) (jsToLower movie.title))
  let originalTitleScore :=
    match movie.original_title with
    | some t =>
      if t.isEmpty then JSNum.fin 0
      else JSNum.fin (calculateSimilarity (jsToLower searchTitle) (jsToLower t))
    | none => JSNum.fin 0
  let popularityScore := ((optNum movie.popularity).div (JSNum.fin 100)).jmin (JSNum.fin 1)
  let voteScore := ((optNum movie.vote_count).div (JSNum.fin 1000)).jmin (JSNum.fin 1)
  (((titleScore.jmax originalTitleScore).mul (JSNum.fin 0.7)).add
    (popularityScore.mul (JSNum.fin 0.2))).add (voteScore.mul (JSNum.fin 0.1))

/-- Stable insertion of `x` into an already sorted list: `x` moves past
    exactly the elements that strictly precede it under the comparator, so
    ties keep input order.  Together with `jsSortStable` this is the
    (unique) stable sort determined by an ES2019 `Array.prototype.sort`
    comparator, with `NaN` comparator results counting as ties. -/
def jsInsert {α : Type} (prec : α → α → Bool) (x : α) : List α → List α
  | [] => [x]
  | y :: ys => if prec y x then y :: jsInsert prec x ys else x :: y :: ys

/-- Stable sort: elements are inserted right to left, so an earlier element
    ends up before any later element it ties with. -/
def jsSortStable {α : Type} (prec : α → α → Bool) : List α → List α
  | [] => []
  | x :: xs => jsInsert prec x (jsSortStable prec xs)

/-- "a strictly precedes b" for the descending score sort
    `(a, b) => b.score - a.score`: the comparator applied to `(a, b)` is
    negative.  A `NaN` difference is not negative, hence a tie. -/
def scoreDescPrec {α : Type} (a b : α × JSNum) : Bool :=
  JSNum.ltb (b.2.sub a.2) (JSNum.fin 0)

/-- `findBestMatch` from TMDbService.js: score every record, sort the scored
    records descending by score (stably), return the first, or `null` for an
    empty record list. -/
def findBestMatch (results : List MovieRecord) (searchTitle : List Char) :
    Option (MovieRecord × JSNum) :=
  if results.length = 0 then none
  else
    (jsSortStable scoreDescPrec
      (results.map (fun movie => (movie, totalScore searchTitle movie)))).head?

/-! ## The block-geometry clustering scorer (server.js) -/

/-- A vertex of a detection's bounding polygon, in pixel coordinates. -/
structure Point where
  x : ℚ
  y : ℚ
deriving DecidableEq

/-- One OCR text detection: its text and the vertices of its
    `boundingPoly` (an absent `boundingPoly` reads as the empty vertex list
    through the source's `block.boundingPoly?.vertices || []`). -/
structure TextDetection where
  description : List Char
  vertices : List Point
deriving DecidableEq

/-- The filename filter `/\.(jpg|jpeg|png|gif|webp|bmp|pdf|doc|txt)$/i`. -/
def isFilenameText (t : List Char) : Bool :=
  [['j','p','g'], ['j','p','e','g'], ['p','n','g'], ['g','i','f'],
   ['w','e','b','p'], ['b','m','p'], ['p','d','f'], ['d','o','c'],
   ['t','x','t']].any (fun ext => ('.' :: ext).isSuffixOf (jsToLower t))

/-- The OCR-noise filter `/^[a-zA-Z0-9]{25,}$/`. -/
def isLongRandomText (t : List Char) : Bool :=
  25 ≤ t.length && t.all (fun c => c.isAlpha || c.isDigit)

/-- The UI-element filter of `extractGenericTitle` (exact, case-sensitive
    comparison against a fixed token list). -/
def isUiElementText (t : List Char) : Bool :=
  [['D','e','l','e','t','e'], ['B','a','c','k','s','p','a','c','e'],
   ['E','n','t','e','r'], ['T','a','b'], ['C','t','r','l'],
   ['A','l','t'], ['S','h','i','f','t']].any (fun u => t = u)

/-- The junk filter of `extractGenericTitle` applied to each detection:
    drop filenames, long alphanumeric runs, UI tokens, text without any
    ASCII letter, and text of length < 1. -/
def keepBlock (block : TextDetection) : Bool :=
  let text := jsTrim block.description
  !(isFilenameText text) && !(isLongRandomText text) && !(isUiElementText text) &&
    text.any Char.isAlpha && !(text.length < 1)

/-- `ImageBounds` from `calculateImageBounds`: running `Math.min`/`Math.max`
    folds start from `Infinity`/`-Infinity`, so with no vertices at all the
    fields are non-finite. -/
structure ImageBounds where
  width : JSNum
  height : JSNum
  centerX : JSNum
  centerY : JSNum
deriving DecidableEq

/-- `calculateImageBounds` from server.js: the bounding box of all
    detections' vertices. -/
def calculateImageBounds (blocks : List TextDetection) : ImageBounds :=
  let vs := (blocks.map (fun b => b.vertices)).flatten
  let minX := vs.foldl (fun acc v => acc.jmin (JSNum.fin v.x)) JSNum.inf
  let minY := vs.foldl (fun acc v => acc.jmin (JSNum.fin v.y)) JSNum.inf
  let maxX := vs.foldl (fun acc v => acc.jmax (JSNum.fin v.x)) JSNum.ninf
  let maxY := vs.foldl (fun acc v => acc.jmax (JSNum.fin v.y)) JSNum.ninf
  { width := maxX.sub minX
    height := maxY.sub minY
    centerX := (maxX.add minX).div (JSNum.fin 2)
    centerY := (maxY.add minY).div (JSNum.fin 2) }

/-- `BlockMetrics` of a detection, flattened: `left/right/top/bottom` are
    the `bounds` record, `centerX/centerY` the `center`, `relativeX/relativeY`
    the `relative` record, `width/height` the `dimensions`, and `aspect` is
    the source's `aspectRatio` field (`width / height`).  The relative
    fields and `aspect`/`relativeArea` are JavaScript divisions and may be
    non-finite. -/
structure BlockMetrics where
  left : ℚ
  right : ℚ
  top : ℚ
  bottom : ℚ
  centerX : ℚ
  centerY : ℚ
  relativeX : JSNum
  relativeY : JSNum
  width : ℚ
  height : ℚ
  aspect : JSNum
  area : ℚ
  relativeArea : JSNum
deriving DecidableEq

/-- `calculateBlockMetrics` from server.js: `null` (here `none`) when the
    quad has fewer than 4 vertices, otherwise the block's derived metrics.
    `relativeX = centerX / imageBounds.width` and
    `relativeY = centerY / imageBounds.height` are JavaScript divisions with
    no guard against zero-sized bounds. -/
def calculateBlockMetrics (vertices : List Point) (imageBounds : ImageBounds) :
    Option BlockMetrics :=
  if vertices.length < 4 then none
  else
    match vertices with
    | [] => none
    | v :: vs =>
      let left := vs.foldl (fun a p => min a p.x) v.x
      let right := vs.foldl (fun a p => max a p.x) v.x
      let top := vs.foldl (fun a p => min a p.y) v.y
      let bottom := vs.foldl (fun a p => max a p.y) v.y
      some
        { left := left, right := right, top := top, bottom := bottom
          centerX := (left + right) / 2
          centerY := (top + bottom) / 2
          relativeX := (JSNum.fin ((left + right) / 2)).div imageBounds.width
          relativeY := (JSNum.fin ((top + bottom) / 2)).div imageBounds.height
          width := right - left
          height := bottom - top
          aspect := (JSNum.fin (right - left)).div (JSNum.fin (bottom - top))
          area := (right - left) * (bottom - top)
          relativeArea := (JSNum.fin ((right - left) * (bottom - top))).div
            (imageBounds.width.mul imageBounds.height) }

/-- `scorePosition` from server.js (reads only the metrics; a `NaN`
    relative position fails both `<` tests and falls to the -10 branch,
    as in JavaScript). -/
def scorePosition (metrics : BlockMetrics) (imageBounds : ImageBounds) : JSNum :=
  let vertical : ℚ :=
    if JSNum.ltb metrics.relativeY (JSNum.fin 0.33) then 40
    else if JSNum.ltb metrics.relativeY (JSNum.fin 0.5) then 20
    else -10
  let centerOffset := ((JSNum.fin 0.5).sub metrics.relativeX).jabs
  ((JSNum.fin 0).add (JSNum.fin vertical)).add
    (((JSNum.fin 1).sub centerOffset).mul (JSNum.fin 30))

/-- `scoreSizeAndRatio` from server.js (the name avoids an all-caps suffix;
    it is the size-and-aspect-ratio term). -/
def scoreSizeAndShape (metrics : BlockMetrics) (imageBounds : ImageBounds) : JSNum :=
  let areaDiff := (metrics.relativeArea.sub (JSNum.fin 0.05)).jabs
  let shapeDiff := (metrics.aspect.sub (JSNum.fin 3)).jabs
  (((JSNum.fin 0).add (((JSNum.fin 1).sub areaDiff).mul (JSNum.fin 40)))).add
    (((JSNum.fin 1).sub (shapeDiff.jmin (JSNum.fin 1))).mul (JSNum.fin 30))

/-- `scoreProximity` from server.js: 10 points per block whose vertex
    centroid lies within 20px vertically.  The source's identity test
    `other.boundingPoly === vertices` compares the `boundingPoly` record
    with the `vertices` array — two distinct objects — and is always false,
    so every block (including the one being scored) is a candidate. -/
def scoreProximity (vertices : List Point) (allBlocks : List TextDetection) : ℚ :=
  let centerY := (JSNum.fin (vertices.foldl (fun s v => s + v.y) 0)).div
    (JSNum.fin vertices.length)
  let nearby := allBlocks.filter (fun other =>
    let otherCenterY := (JSNum.fin (other.vertices.foldl (fun s v => s + v.y) 0)).div
      (JSNum.fin other.vertices.length)
    JSNum.ltb ((centerY.sub otherCenterY).jabs) (JSNum.fin 20))
  (nearby.length : ℚ) * 10

/-- `scoreTextCharacteristics` from server.js. -/
def scoreTextCharacteristics (text : List Char) : JSNum :=
  let words := (jsSplitWS text).length
  let wordBonus : ℚ := if 1 ≤ words ∧ words ≤ 4 then 25 else if words ≤ 6 then 10 else 0
  let letters := (text.filter Char.isAlpha).length
  ((JSNum.fin 0).add (JSNum.fin wordBonus)).add
    (((JSNum.fin letters).div (JSNum.fin text.length)).mul (JSNum.fin 30))

/-- `^F\d{1,2}$/i`. -/
def isFnKeyText (t : List Char) : Bool :=
  match t with
  | c :: rest =>
    (c = 'F' || c = 'f') && decide (1 ≤ rest.length) && decide (rest.length ≤ 2) &&
      rest.all Char.isDigit
  | [] => false

/-- Case-insensitive membership in a fixed word list (a `/^(w1|w2|…)$/i`
    test). -/
def ciOneOf (ws : List (List Char)) (t : List Char) : Bool :=
  ws.any (fun w => jsToLower t = w)

/-- `^(Num|Scroll|Caps)\s*Lock$/i`. -/
def isLockKeyText (t : List Char) : Bool :=
  let w := jsToLower t
  [['n','u','m'], ['s','c','r','o','l','l'], ['c','a','p','s']].any (fun p =>
    p.isPrefixOf w && (w.drop p.length).dropWhile isJsSpace = ['l','o','c','k'])

/-- `isKeyboardRelatedText` from server.js: the disjunction of all the
    keyboard regex patterns plus the additional indicator checks. -/
def isKeyboardRelatedText (t : List Char) : Bool :=
  let isKeyboard :=
    isFnKeyText t ||
    ciOneOf [['h','o','m','e'], ['e','n','d'], ['i','n','s','e','r','t'],
      ['d','e','l'], ['d','e','l','e','t','e'], ['e','s','c'], ['t','a','b'],
      ['e','n','t','e','r'], ['r','e','t','u','r','n'], ['s','p','a','c','e'],
      ['b','a','c','k','s','p','a','c','e']] t ||
    -- the three keyboard-row classes /^[QWERTYUIOP]$/i etc.
    (match t with
     | [c] =>
       (['q','w','e','r','t','y','u','i','o','p'].any (fun r => c.toLower = r)) ||
       (['a','s','d','f','g','h','j','k','l'].any (fun r => c.toLower = r)) ||
       (['z','x','c','v','b','n','m'].any (fun r => c.toLower = r))
     | _ => false) ||
    ciOneOf [['c','t','r','l'], ['a','l','t'], ['s','h','i','f','t'],
      ['w','i','n'], ['c','m','d'], ['f','n']] t ||
    isLockKeyText t ||
    ciOneOf [['p','r','t','s','c'], ['s','y','s','r','q'], ['p','a','u','s','e'],
      ['b','r','e','a','k'], ['p','g','u','p'], ['p','g','d','n'],
      ['p','r','i','s','c'], ['s','c','r','l','k']] t ||
    ciOneOf [['u','p'], ['d','o','w','n'], ['l','e','f','t'],
      ['r','i','g','h','t'], ['n','a','v']] t ||
    ciOneOf [['k','b'], ['b','r'], ['d','b'], ['d','i','b']] t ||
    -- /^[A-Z]$/ (case-sensitive)
    (match t with
     | [c] => c.isUpper
     | _ => false) ||
    ciOneOf [['o','k'], ['c','a','n','c','e','l'], ['m','e','n','u']] t
  let hasKeyboardIndicators :=
    (decide (t.length ≤ 3) &&
      (match t with
       | c :: rest => c.isUpper && rest.all (fun d => d.isDigit || d = '-')
       | [] => false)) ||
    (decide (1 ≤ t.length) && decide (t.length ≤ 3) && t.all Char.isUpper) ||
    containsSub ['k','e','y'] t ||
    containsSub ['b','t','n'] t ||
    containsSub ['b','u','t','t','o','n'] t
  isKeyboard || hasKeyboardIndicators

/-- A scored detection, as produced by the mapping step of
    `identifyTitleBySpatialLogic`. -/
structure ScoredBlock where
  text : List Char
  metrics : BlockMetrics
  score : JSNum
deriving DecidableEq

/-- The body of the scoring `map` in `identifyTitleBySpatialLogic`.  When
    `calculateBlockMetrics` returns `null`, the immediately following
    `scorePosition(metrics, …)` reads `metrics.relative` of `null` and
    throws a TypeError, modelled as `Except.error ()`. -/
def scoreBlock (allBlocks : List TextDetection) (imageBounds : ImageBounds)
    (block : TextDetection) : Except Unit ScoredBlock :=
  let text := jsTrim block.description
  match calculateBlockMetrics block.vertices imageBounds with
  | none => Except.error ()
  | some m =>
    Except.ok
      { text := text
        metrics := m
        score := ((((JSNum.fin 0).add (scorePosition m imageBounds)).add
          (scoreSizeAndShape m imageBounds)).add
          (JSNum.fin (scoreProximity block.vertices allBlocks))).add
          (scoreTextCharacteristics text) }

/-- The scoring `map` over all blocks; the first thrown TypeError aborts. -/
def mapScoreBlocks (allBlocks : List TextDetection) (imageBounds : ImageBounds) :
    List TextDetection → Except Unit (List ScoredBlock)
  | [] => Except.ok []
  | b :: bs =>
    match scoreBlock allBlocks imageBounds b with
    | Except.error e => Except.error e
    | Except.ok sb =>
      match mapScoreBlocks allBlocks imageBounds bs with
      | Except.error e => Except.error e
      | Except.ok rest => Except.ok (sb :: rest)

/-- `areBlocksAdjacent` from server.js: vertical center gap below 2% of the
    image-bounds height and horizontal center gap below 50% of the smaller
    width. -/
def areBlocksAdjacent (m1 m2 : BlockMetrics) (imageBounds : ImageBounds) : Bool :=
  let verticalThreshold := imageBounds.height.mul (JSNum.fin 0.02)
  let horizontalThreshold : ℚ := min m1.width m2.width * 0.5
  JSNum.ltb (JSNum.fin |m1.centerY - m2.centerY|) verticalThreshold &&
    decide (|m1.centerX - m2.centerX| < horizontalThreshold)

/-- A text group: the seed block (`blocks[0]`), the remaining member
    blocks, the concatenated text, the additive score and the group metrics
    (the seed's metrics, partially overwritten on merge). -/
structure TextGroup where
  first : ScoredBlock
  rest : List ScoredBlock
  text : List Char
  score : JSNum
  metrics : BlockMetrics
deriving DecidableEq

/-- The inner scan of `groupAdjacentBlocks`: walk the blocks after the seed
    (with their processed tags), collect every unprocessed block adjacent to
    the seed, and mark it processed. -/
def innerScan (seed : ScoredBlock) (imageBounds : ImageBounds) :
    List ScoredBlock → List Bool → List ScoredBlock × List Bool
  | [], _ => ([], [])
  | b :: bs, tags =>
    let r := innerScan seed imageBounds bs tags.tail
    if !tags.headD false && areBlocksAdjacent seed.metrics b.metrics imageBounds then
      (b :: r.1, true :: r.2)
    else (r.1, tags.headD false :: r.2)

/-- The outer loop of `groupAdjacentBlocks`: each unprocessed block seeds a
    group whose members are the unprocessed adjacent blocks that follow it
    in the sorted order; text is concatenated with single spaces and scores
    are summed; the group keeps the seed's metrics. -/
def outerGroups (imageBounds : ImageBounds) :
    List ScoredBlock → List Bool → List TextGroup
  | [], _ => []
  | b :: bs, tags =>
    if tags.headD false then outerGroups imageBounds bs tags.tail
    else
      let r := innerScan b imageBounds bs tags.tail
      { first := b
        rest := r.1
        text := r.1.foldl (fun t o => t ++ ' ' :: o.text) b.text
        score := r.1.foldl (fun s o => s.add o.score) b.score
        metrics := b.metrics } :: outerGroups imageBounds bs r.2

/-- "a strictly precedes b" for the ascending sort
    `(a, b) => a.metrics.center.y - b.metrics.center.y`. -/
def centerYPrec (a b : ScoredBlock) : Bool :=
  decide (a.metrics.centerY - b.metrics.centerY < 0)

/-- `groupAdjacentBlocks` from server.js: sort the scored blocks by vertical
    center ascending (stable sort), then group with the processed-set walk. -/
def groupAdjacentBlocks (scoredBlocks : List ScoredBlock) (imageBounds : ImageBounds) :
    List TextGroup :=
  let sorted := jsSortStable centerYPrec scoredBlocks
  outerGroups imageBounds sorted (List.replicate sorted.length false)

/-- `/^(THE|A|AN)$/i`. -/
def isArticleWord (t : List Char) : Bool :=
  ciOneOf [['t','h','e'], ['a'], ['a','n']] t

/-- `shouldCombineGroups` from server.js. -/
def shouldCombineGroups (group1 group2 : TextGroup) : Bool :=
  let verticalGap := |group1.metrics.centerY - group2.metrics.centerY|
  let horizontalAlignment := |group1.metrics.centerX - group2.metrics.centerX|
  let verticalThreshold : ℚ :=
    min (group1.metrics.height * 2) (min (group2.metrics.height * 2) 50)
  let horizontalThreshold : ℚ := max group1.metrics.width group2.metrics.width * 0.5
  decide (verticalGap < verticalThreshold) &&
  decide (horizontalAlignment < horizontalThreshold) &&
  ((decide (jsToUpper group1.text = group1.text) &&
    decide (jsToUpper group2.text = group2.text) &&
    decide (1 < group1.text.length) && decide (1 < group2.text.length) &&
    !(isKeyboardRelatedText group1.text) && !(isKeyboardRelatedText group2.text)) ||
   (decide (group1.text.getLast? = some ':') && !(isKeyboardRelatedText group2.text)) ||
   (isArticleWord group1.text && decide (jsToUpper group2.text = group2.text)))

/-- The merged group built inside `combineRelatedTitleParts`: concatenated
    blocks and text (with `': '` normalization), summed score, and the first
    group's metrics with averaged center and recomputed dimensions. -/
def mergeGroups (group1 group2 : TextGroup) : TextGroup :=
  { first := group1.first
    rest := group1.rest ++ group2.first :: group2.rest
    text := normColon (group1.text ++ ' ' :: group2.text)
    score := group1.score.add group2.score
    metrics := { group1.metrics with
      centerX := (group1.metrics.centerX + group2.metrics.centerX) / 2
      centerY := (group1.metrics.centerY + group2.metrics.centerY) / 2
      width := max (group2.metrics.right - group1.metrics.left)
        (max group1.metrics.width group2.metrics.width)
      height := |group2.metrics.bottom - group1.metrics.top| } }

/-- The nested loops of `combineRelatedTitleParts` as a tail recursion,
    parameterized by the pair guard and the merge operation (instantiated
    below with `shouldCombineGroups` and `mergeGroups`): state
    `(i, j, changes)` walks all pairs `i < j`; a merge replaces element `i`
    and removes element `j`, keeping `j` (the source does `j--` before the
    loop increment); when the outer loop finishes, the do-while repeats
    from the start while `changes` is set. -/
def combineLoop {α : Type} (should : α → α → Bool) (merge : α → α → α)
    (i j : Nat) (changes : Bool) (l : List α) : List α :=
  if hij : j < l.length ∧ i < j then
    if should (l.get ⟨i, Nat.lt_trans hij.2 hij.1⟩) (l.get ⟨j, hij.1⟩) then
      combineLoop should merge i j true
        ((l.set i (merge (l.get ⟨i, Nat.lt_trans hij.2 hij.1⟩)
          (l.get ⟨j, hij.1⟩))).eraseIdx j)
    else combineLoop should merge i (j + 1) changes l
  else if hnext : i + 1 < l.length then combineLoop should merge (i + 1) (i + 2) changes l
  else if hch : changes = true then combineLoop should merge 0 1 false l
  else l
termination_by (l.length, (if changes then 1 else 0), l.length - i, l.length - j)
decreasing_by
  · have h1 : ((l.set i (merge (l.get ⟨i, Nat.lt_trans hij.2 hij.1⟩)
        (l.get ⟨j, hij.1⟩))).eraseIdx j).length = l.length - 1 := by
      simp [List.length_eraseIdx, hij.1]
    simp only [h1]
    exact Prod.Lex.left _ _ (by omega)
  · exact Prod.Lex.right _ (Prod.Lex.right _ (Prod.Lex.right _ (by omega)))
  · exact Prod.Lex.right _ (Prod.Lex.right _ (Prod.Lex.left _ _ (by omega)))
  · exact Prod.Lex.right _ (Prod.Lex.left _ _ (by simp [hch]))

/-- The number of do-while passes of the merge loop that performed at least
    one merge (each such pass sets `changes` and causes one more full
    pass). -/
def combineRestarts {α : Type} (should : α → α → Bool) (merge : α → α → α)
    (i j : Nat) (changes : Bool) (l : List α) : Nat :=
  if hij : j < l.length ∧ i < j then
    if should (l.get ⟨i, Nat.lt_trans hij.2 hij.1⟩) (l.get ⟨j, hij.1⟩) then
      combineRestarts should merge i j true
        ((l.set i (merge (l.get ⟨i, Nat.lt_trans hij.2 hij.1⟩)
          (l.get ⟨j, hij.1⟩))).eraseIdx j)
    else combineRestarts should merge i (j + 1) changes l
  else if hnext : i + 1 < l.length then combineRestarts should merge (i + 1) (i + 2) changes l
  else if hch : changes = true then 1 + combineRestarts should merge 0 1 false l
  else 0
termination_by (l.length, (if changes then 1 else 0), l.length - i, l.length - j)
decreasing_by
  · have h1 : ((l.set i (merge (l.get ⟨i, Nat.lt_trans hij.2 hij.1⟩)
        (l.get ⟨j, hij.1⟩))).eraseIdx j).length = l.length - 1 := by
      simp [List.length_eraseIdx, hij.1]
    simp only [h1]
    exact Prod.Lex.left _ _ (by omega)
  · exact Prod.Lex.right _ (Prod.Lex.right _ (Prod.Lex.right _ (by omega)))
  · exact Prod.Lex.right _ (Prod.Lex.right _ (Prod.Lex.left _ _ (by omega)))
  · exact Prod.Lex.right _ (Prod.Lex.left _ _ (by simp [hch]))

/-- `combineRelatedTitleParts` from server.js. -/
def combineRelatedTitleParts (groups : List TextGroup) : List TextGroup :=
  combineLoop shouldCombineGroups mergeGroups 0 1 false groups

/-- `text.split(/\s+/).length`, the word count used in `selectBestGroup`. -/
def wordCount (text : List Char) : Nat := (jsSplitWS text).length

/-- `text === text.toUpperCase()`. -/
def isUpperCaseText (text : List Char) : Bool := decide (text = jsToUpper text)

/-- `/^(THE|A|AN)\s/i`: a leading article followed by one whitespace
    character (the regex alternation amounts to this disjunction). -/
def hasArticle (text : List Char) : Bool :=
  let w := jsToLower text
  [['t','h','e'], ['a'], ['a','n']].any (fun p =>
    p.isPrefixOf w &&
      (match w.drop p.length with
       | c :: _ => isJsSpace c
       | [] => false))

/-- The deterministic automaton for the title-format regex
    `/^[A-Z][a-zA-Z]+([\s:-][A-Z][a-zA-Z]+)*$/` (letters and the separator
    class are disjoint, so greedy matching never backtracks).
    State 0: expect the leading capital; state 1: need at least one more
    letter; state 2: inside a word of length ≥ 2; state 3: just consumed a
    separator. -/
def titleFmtState : Nat → List Char → Bool
  | 2, [] => true
  | _, [] => false
  | 0, c :: cs => if c.isUpper then titleFmtState 1 cs else false
  | 1, c :: cs => if c.isAlpha then titleFmtState 2 cs else false
  | 2, c :: cs =>
    if c.isAlpha then titleFmtState 2 cs
    else if isJsSpace c || c = ':' || c = '-' then titleFmtState 3 cs
    else false
  | 3, c :: cs => if c.isUpper then titleFmtState 1 cs else false
  | _ + 4, _ :: _ => false

/-- `/^[A-Z][a-zA-Z]+([\s:-][A-Z][a-zA-Z]+)*$/.test(text)`. -/
def isTitleFormat (text : List Char) : Bool := titleFmtState 0 text

/-- The word-count multiplier applied at the end of the scoring chain in
    `selectBestGroup`: `if (wordCount === 2) finalScore *= 3.0; else if
    (wordCount <= 4) finalScore *= 2.0;` — as a factor (1 when neither
    branch fires). -/
def wordCountFactor (n : Nat) : ℚ :=
  if n = 2 then 3 else if n ≤ 4 then 2 else 1

/-- The scoring chain of `selectBestGroup` up to (but excluding) the final
    word-count step: the keyboard penalty or the compounding position,
    centering, case, article and title-format multipliers, applied to the
    re-summed block scores. -/
def finalGroupScorePreWC (group : TextGroup) : JSNum :=
  let base := (group.first :: group.rest).foldl (fun s b => s.add b.score) (JSNum.fin 0)
  if isKeyboardRelatedText group.text then base.mul (JSNum.fin 0.01)
  else
    let verticalPosition := group.first.metrics.relativeY
    let horizontalCenter := ((JSNum.fin 0.5).sub group.first.metrics.relativeX).jabs
    let s1 :=
      if JSNum.ltb verticalPosition (JSNum.fin 0.4) then base.mul (JSNum.fin 4)
      else if JSNum.ltb verticalPosition (JSNum.fin 0.6) then base.mul (JSNum.fin 2.5)
      else base
    let s2 :=
      if JSNum.ltb horizontalCenter (JSNum.fin 0.15) then s1.mul (JSNum.fin 2.5) else s1
    let s3 := if isUpperCaseText group.text then s2.mul (JSNum.fin 1.8) else s2
    let s4 := if hasArticle group.text then s3.mul (JSNum.fin 1.4) else s3
    if isTitleFormat group.text then s4.mul (JSNum.fin 2.2) else s4

/-- The full `finalScore` of one group in `selectBestGroup`: the
    multiplier chain up to the title-format step (`finalGroupScorePreWC`),
    then the final word-count step; the keyboard branch skips the
    word-count step, exactly as in the source's if/else. -/
def finalGroupScore (group : TextGroup) : JSNum :=
  let s5 := finalGroupScorePreWC group
  if isKeyboardRelatedText group.text then s5
  else if wordCount group.text = 2 then s5.mul (JSNum.fin 3)
  else if wordCount group.text ≤ 4 then s5.mul (JSNum.fin 2)
  else s5

/-- `selectBestGroup` from server.js: `null` for an empty group list;
    otherwise combine related title parts, score every group, sort
    descending by final score (stable) and return the top candidate. -/
def selectBestGroup (groups : List TextGroup) : Option (TextGroup × JSNum) :=
  if groups.length = 0 then none
  else
    (jsSortStable scoreDescPrec
      ((combineRelatedTitleParts groups).map (fun g => (g, finalGroupScore g)))).head?

/-- `applyGenericCleanup` from server.js: `null` stays `null` (and the empty
    string is falsy); words of length ≤ 1, without letters, or
    keyboard-like are dropped; then characters outside `\w\s:'-` are
    removed, whitespace is collapsed and the ends trimmed. -/
def applyGenericCleanup (titleCandidate : Option (List Char)) : Option (List Char) :=
  match titleCandidate with
  | none => none
  | some s =>
    if s.isEmpty then none
    else
      let cleanedText := List.intercalate [' ']
        ((jsSplitWS s).filter (fun w =>
          decide (1 < w.length) && w.any Char.isAlpha && !(isKeyboardRelatedText w)))
      if cleanedText.isEmpty then none
      else
        some (jsTrim (collapseWS (cleanedText.filter (fun c =>
          isWordChar c || isJsSpace c || c = ':' || c = '\'' || c = '-'))))

/-- `identifyTitleBySpatialLogic` from server.js: bounds, per-block scoring
    (which throws on a quad with fewer than 4 vertices), grouping, group
    selection; returns the best group's text or `null`. -/
def identifyTitleBySpatialLogic (blocks : List TextDetection) :
    Except Unit (Option (List Char)) :=
  let imageBounds := calculateImageBounds blocks
  match mapScoreBlocks blocks imageBounds blocks with
  | Except.error e => Except.error e
  | Except.ok scoredBlocks =>
    let groups := groupAdjacentBlocks scoredBlocks imageBounds
    match selectBestGroup groups with
    | some best => Except.ok (some best.1.text)
    | none => Except.ok none

/-- `extractGenericTitle` from server.js: junk filtering, then the spatial
    pipeline, then generic cleanup; an empty filter result returns `null`
    without invoking the pipeline. -/
def extractGenericTitle (textBlocks : List TextDetection) :
    Except Unit (Option (List Char)) :=
  let cleanBlocks := textBlocks.filter keepBlock
  if cleanBlocks.isEmpty then Except.ok none
  else
    match identifyTitleBySpatialLogic cleanBlocks with
    | Except.error e => Except.error e
    | Except.ok titleCandidate => Except.ok (applyGenericCleanup titleCandidate)

/-! ## Definitions modelled from the spec's words (for refinement claims) -/

/-- Modelled from the spec: the first record attaining the maximal
    `totalScore` — "Sort descending by totalScore, stable on ties (preserves
    input order); return the first record".  A later record replaces the
    running best only when its score is strictly greater under the
    JavaScript comparison. -/
def specFirstBest : List (MovieRecord × JSNum) → Option (MovieRecord × JSNum)
  | [] => none
  | x :: xs =>
    match specFirstBest xs with
    | none => some x
    | some b => some (if JSNum.gtb b.2 x.2 then b else x)

/-- Modelled from the spec: the claimed line grouping — "walk the sorted
    list, starting a new group whenever the vertical gap to the running
    group's last member exceeds max(currentHeight, lastHeight) * 1.5;
    otherwise append to the current group, concatenating text with a single
    space and summing scores."  Returns, per group, the concatenated text
    and summed score. -/
def specLineGroupingAux (lastMember : ScoredBlock) (curText : List Char)
    (curScore : JSNum) : List ScoredBlock → List (List Char × JSNum)
  | [] => [(curText, curScore)]
  | b :: bs =>
    if |b.metrics.centerY - lastMember.metrics.centerY| >
        max b.metrics.height lastMember.metrics.height * 1.5 then
      (curText, curScore) :: specLineGroupingAux b b.text b.score bs
    else specLineGroupingAux b (curText ++ ' ' :: b.text) (curScore.add b.score) bs

/-- Modelled from the spec: sort by vertical center ascending and apply the
    size-relative 1.5 threshold walk. -/
def specLineGrouping (scoredBlocks : List ScoredBlock) : List (List Char × JSNum) :=
  match jsSortStable centerYPrec scoredBlocks with
  | [] => []
  | b :: bs => specLineGroupingAux b b.text b.score bs

/-- Modelled from the spec: the claimed word-count bonus of the final group
    scoring — "×3.0 for exactly 2 words, ×2.0 for 3–4 words" and no
    multiplier otherwise (in particular none for a single word). -/
def specWordCountFactor (n : Nat) : ℚ :=
  if n = 2 then 3 else if 3 ≤ n ∧ n ≤ 4 then 2 else 1

/-- Modelled from the spec: the claimed record score — "popScore =
    min(popularity/100, 1) (0 if absent)" and "voteScore =
    min(vote_count/1000, 1) (0 if absent)", combined as
    `0.7*textScore + 0.2*popScore + 0.1*voteScore`. -/
def specTotalScore (searchTitle : List Char) (movie : MovieRecord) : ℚ :=
  let titleScore := calculateSimilarity (jsToLower searchTitle) (jsToLower movie.title)
  let originalTitleScore :=
    match movie.original_title with
    | some t =>
      if t.isEmpty then 0
      else calculateSimilarity (jsToLower searchTitle) (jsToLower t)
    | none => 0
  let popScore : ℚ :=
    match movie.popularity with
    | some p => min (p / 100) 1
    | none => 0
  let voteScore : ℚ :=
    match movie.vote_count with
    | some v => min (v / 1000) 1
    | none => 0
  0.7 * max titleScore originalTitleScore + 0.2 * popScore + 0.1 * voteScore

/-! ## Reference definitions for the similarity claims -/

/-- Unit substitution cost: 0 on equal characters, else 1. -/
def subCost (x y : Char) : Nat := if x = y then 0 else 1

/-- The textbook Levenshtein distance: unit-cost insert, delete and
    substitute, recursing on the leading characters. -/
def levStd : List Char → List Char → Nat
  | [], ys => ys.length
  | x :: xs, [] => (x :: xs).length
  | x :: xs, y :: ys =>
    min (levStd xs (y :: ys) + 1)
      (min (levStd (x :: xs) ys + 1) (levStd xs ys + subCost x y))
termination_by xs ys => xs.length + ys.length
decreasing_by all_goals simp_arith

/-- The recurrence computed cell-wise by the matrix of
    `calculateSimilarity`, on lists: the matrix compares the last characters
    of the two prefixes, which are the heads of the reversed prefixes. -/
def levCode : List Char → List Char → Nat
  | [], ys => ys.length
  | x :: xs, [] => (x :: xs).length
  | x :: xs, y :: ys =>
    if y = x then levCode xs ys
    else min (levCode xs ys + 1) (min (levCode xs (y :: ys) + 1) (levCode (x :: xs) ys + 1))
termination_by xs ys => xs.length + ys.length
decreasing_by all_goals simp_arith

/-- Entry (i, j) of the matrix of `calculateSimilarity`: the distance
    between the length-j prefix of `str1` and the length-i prefix of
    `str2`. -/
def prefD (s1 s2 : List Char) (i j : Nat) : Nat :=
  levCode ((s1.take j).reverse) ((s2.take i).reverse)

/-- Row `i` of the matrix from column `k` on, expressed through `prefD`. -/
def rowSpec (s1 s2 : List Char) (i k : Nat) : List Nat :=
  (List.range' k (s1.length + 1 - k)).map (prefD s1 s2 i)

/-! ## Properties of the edit-distance embedding -/

theorem levStd_nil_left (ys : List Char) : levStd [] ys = ys.length := by
  rw [levStd]

theorem levStd_nil_right (xs : List Char) : levStd xs [] = xs.length := by
  cases xs <;> rw [levStd]

theorem levStd_cons_cons (x y : Char) (xs ys : List Char) :
    levStd (x :: xs) (y :: ys) =
      min (levStd xs (y :: ys) + 1)
        (min (levStd (x :: xs) ys + 1) (levStd xs ys + subCost x y)) := by
  rw [levStd]

theorem subCost_le_one (x y : Char) : subCost x y ≤ 1 := by
  unfold subCost; split <;> omega

theorem levStd_del_le (x : Char) (xs ys : List Char) :
    levStd (x :: xs) ys ≤ levStd xs ys + 1 := by
  cases ys with
  | nil => simp [levStd_nil_right]
  | cons y ys => rw [levStd_cons_cons]; omega

theorem levStd_ins_le (y : Char) (xs ys : List Char) :
    levStd xs (y :: ys) ≤ levStd xs ys + 1 := by
  cases xs with
  | nil => simp [levStd_nil_left]
  | cons x xs => rw [levStd_cons_cons]; omega

theorem levStd_le_ins (y : Char) (xs ys : List Char) :
    levStd xs ys ≤ levStd xs (y :: ys) + 1 := by
  induction xs generalizing ys with
  | nil => simp only [levStd_nil_left, List.length_cons]; omega
  | cons x xs ih =>
    rw [levStd_cons_cons (x := x) (y := y)]
    have h1 : levStd (x :: xs) ys ≤ levStd xs ys + 1 := levStd_del_le x xs ys
    have h2 : levStd xs ys ≤ levStd xs (y :: ys) + 1 := ih ys
    omega

theorem levStd_le_del (x : Char) (xs ys : List Char) :
    levStd xs ys ≤ levStd (x :: xs) ys + 1 := by
  induction ys generalizing xs with
  | nil => simp only [levStd_nil_right, List.length_cons]; omega
  | cons y ys ih =>
    rw [levStd_cons_cons]
    have h1 : levStd xs (y :: ys) ≤ levStd xs ys + 1 := levStd_ins_le y xs ys
    have h3 : levStd xs ys ≤ levStd (x :: xs) ys + 1 := ih xs
    omega

theorem levStd_self (xs : List Char) : levStd xs xs = 0 := by
  induction xs with
  | nil => simp [levStd_nil_left]
  | cons x xs ih =>
    rw [levStd_cons_cons]
    have hc : subCost x x = 0 := by simp [subCost]
    have h1 := levStd_le_ins x xs xs
    have h2 := levStd_le_del x xs xs
    omega

theorem levStd_le_max (xs ys : List Char) :
    levStd xs ys ≤ max xs.length ys.length := by
  induction xs generalizing ys with
  | nil => simp [levStd_nil_left]
  | cons x xs ih =>
    cases ys with
    | nil => simp [levStd_nil_right]
    | cons y ys =>
      rw [levStd_cons_cons]
      have h1 := ih ys
      have h2 := subCost_le_one x y
      simp only [List.length_cons] at *
      omega

set_option maxHeartbeats 1600000 in
theorem levStd_snoc (a b : Char) :
    ∀ (as bs : List Char),
      levStd (as ++ [a]) (bs ++ [b]) =
        min (levStd as (bs ++ [b]) + 1)
          (min (levStd (as ++ [a]) bs + 1) (levStd as bs + subCost a b)) := by
  intro as
  induction as with
  | nil =>
    intro bs
    induction bs with
    | nil =>
      simp only [List.nil_append]
      rw [levStd_cons_cons]
    | cons b' bs ihb =>
      simp only [List.nil_append] at ihb ⊢
      rw [show (b' :: bs) ++ [b] = b' :: (bs ++ [b]) from rfl]
      rw [levStd_cons_cons, ihb, levStd_cons_cons]
      simp only [levStd_nil_left, levStd_nil_right, List.length_append, List.length_cons,
        List.length_nil]
      have := subCost_le_one a b
      have := subCost_le_one a b'
      omega
  | cons a' as iha =>
    intro bs
    induction bs with
    | nil =>
      rw [show (a' :: as) ++ [a] = a' :: (as ++ [a]) from rfl]
      rw [show ([] : List Char) ++ [b] = [b] from rfl]
      rw [levStd_cons_cons]
      have h0 := iha []
      simp only [List.nil_append] at h0
      rw [h0, levStd_cons_cons]
      simp only [levStd_nil_left, levStd_nil_right, List.length_append, List.length_cons,
        List.length_nil]
      have := subCost_le_one a b
      have := subCost_le_one a' b
      omega
    | cons b' bs ihb =>
      rw [show (a' :: as) ++ [a] = a' :: (as ++ [a]) from rfl]
      rw [show (b' :: bs) ++ [b] = b' :: (bs ++ [b]) from rfl]
      rw [levStd_cons_cons]
      have h1 := iha (b' :: bs)
      simp only [List.cons_append] at h1
      have h2 := ihb
      rw [show (a' :: as) ++ [a] = a' :: (as ++ [a]) from rfl] at h2
      have h3 := iha bs
      rw [h1, h2, h3]
      rw [levStd_cons_cons a' b' as (bs ++ [b]), levStd_cons_cons a' b' (as ++ [a]) bs,
        levStd_cons_cons a' b' as bs]
      simp only [← min_add_add_right]
      simp only [add_assoc, add_comm, add_left_comm]
      simp only [min_assoc]
      simp only [min_comm, min_left_comm]

theorem levStd_rev_aux :
    ∀ n (xs ys : List Char), xs.length + ys.length ≤ n →
      levStd xs.reverse ys.reverse = levStd xs ys := by
  intro n
  induction n with
  | zero =>
    intro xs ys h
    have hx : xs = [] := by cases xs <;> simp_all
    have hy : ys = [] := by cases ys <;> simp_all
    subst hx; subst hy; rfl
  | succ n ih =>
    intro xs ys h
    cases xs with
    | nil => simp [levStd_nil_left]
    | cons x xs =>
      cases ys with
      | nil => simp [levStd_nil_right]
      | cons y ys =>
        simp only [List.reverse_cons]
        rw [levStd_snoc]
        rw [show ys.reverse ++ [y] = (y :: ys).reverse by simp]
        rw [show xs.reverse ++ [x] = (x :: xs).reverse by simp]
        simp only [List.length_cons] at h
        rw [ih xs (y :: ys) (by simp; omega)]
        rw [ih (x :: xs) ys (by simp; omega)]
        rw [ih xs ys (by omega)]
        rw [levStd_cons_cons]

theorem levStd_rev (xs ys : List Char) :
    levStd xs.reverse ys.reverse = levStd xs ys :=
  levStd_rev_aux (xs.length + ys.length) xs ys le_rfl

theorem levCode_nil_left (ys : List Char) : levCode [] ys = ys.length := by rw [levCode]

theorem levCode_nil_right (xs : List Char) : levCode xs [] = xs.length := by
  cases xs <;> rw [levCode]

theorem levCode_cons_cons (x y : Char) (xs ys : List Char) :
    levCode (x :: xs) (y :: ys) =
      if y = x then levCode xs ys
      else min (levCode xs ys + 1) (min (levCode xs (y :: ys) + 1) (levCode (x :: xs) ys + 1)) := by
  rw [levCode]

theorem levCode_eq_levStd_aux :
    ∀ n (xs ys : List Char), xs.length + ys.length ≤ n → levCode xs ys = levStd xs ys := by
  intro n
  induction n with
  | zero =>
    intro xs ys h
    have hx : xs = [] := by cases xs <;> simp_all
    subst hx; rw [levCode_nil_left, levStd_nil_left]
  | succ n ih =>
    intro xs ys h
    cases xs with
    | nil => rw [levCode_nil_left, levStd_nil_left]
    | cons x xs =>
      cases ys with
      | nil => rw [levCode_nil_right, levStd_nil_right]
      | cons y ys =>
        simp only [List.length_cons] at h
        rw [levCode_cons_cons, levStd_cons_cons]
        rw [ih xs ys (by omega), ih xs (y :: ys) (by simp; omega),
          ih (x :: xs) ys (by simp; omega)]
        by_cases hxy : y = x
        · rw [if_pos hxy]
          have hc : subCost x y = 0 := by simp [subCost, hxy]
          have h1 := levStd_le_ins y xs ys
          have h2 := levStd_le_del x xs ys
          omega
        · rw [if_neg hxy]
          have hc : subCost x y = 1 := by
            have hne : x = y -> False := fun hh => hxy hh.symm
            simp only [subCost, if_neg hne]
          omega


theorem levCode_eq_levStd (xs ys : List Char) : levCode xs ys = levStd xs ys :=
  levCode_eq_levStd_aux (xs.length + ys.length) xs ys le_rfl

theorem take_succ_reverse (l : List Char) (j : Nat) (hj : j < l.length) (d : Char) :
    (l.take (j + 1)).reverse = l.getD j d :: (l.take j).reverse := by
  rw [List.take_succ]
  have h1 : l[j]? = some (l.getD j d) := by
    rw [List.getElem?_eq_getElem hj]
    simp [List.getD, List.getElem?_eq_getElem hj]
  rw [h1]
  simp

theorem prefD_zero_left (s1 s2 : List Char) (j : Nat) (hj : j ≤ s1.length) :
    prefD s1 s2 0 j = j := by
  simp [prefD, levCode_nil_right, hj]

theorem prefD_zero_right (s1 s2 : List Char) (i : Nat) (hi : i ≤ s2.length) :
    prefD s1 s2 i 0 = i := by
  simp [prefD, levCode_nil_left, hi]

theorem prefD_succ_succ (s1 s2 : List Char) (i j : Nat)
    (hi : i < s2.length) (hj : j < s1.length) :
    prefD s1 s2 (i + 1) (j + 1) =
      if s2.getD i ' ' = s1.getD j ' ' then prefD s1 s2 i j
      else min (prefD s1 s2 i j + 1)
        (min (prefD s1 s2 (i + 1) j + 1) (prefD s1 s2 i (j + 1) + 1)) := by
  unfold prefD
  rw [take_succ_reverse s1 j hj ' ', take_succ_reverse s2 i hi ' ']
  rw [levCode_cons_cons]

theorem rowSpec_cons (s1 s2 : List Char) (i k : Nat) (hk : k ≤ s1.length) :
    rowSpec s1 s2 i k = prefD s1 s2 i k :: rowSpec s1 s2 i (k + 1) := by
  unfold rowSpec
  rw [show s1.length + 1 - k = (s1.length - k) + 1 by omega]
  rw [List.range'_succ]
  simp [show s1.length + 1 - (k + 1) = s1.length - k by omega]

theorem rowSpec_last (s1 s2 : List Char) (i : Nat) :
    rowSpec s1 s2 i (s1.length + 1) = [] := by
  simp [rowSpec]

theorem levRowAux_spec (s1 s2 : List Char) (i : Nat) (hi : i < s2.length) :
    ∀ (rest : List Char) (k : Nat), rest = s1.drop k → k ≤ s1.length →
      levRowAux (s2.getD i ' ') rest (rowSpec s1 s2 i (k + 1))
          (prefD s1 s2 i k) (prefD s1 s2 (i + 1) k) =
        rowSpec s1 s2 (i + 1) (k + 1) := by
  intro rest
  induction rest with
  | nil =>
    intro k hrest hk
    have hk2 : s1.length ≤ k := by
      by_contra hlt
      push_neg at hlt
      have hne : s1.drop k ≠ [] := by
        simp [List.drop_eq_nil_iff]
        omega
      exact hne hrest.symm
    have hkeq : k = s1.length := le_antisymm hk hk2
    subst hkeq
    rw [rowSpec_last, rowSpec_last]
    rfl
  | cons a rest ih =>
    intro k hrest hk
    have hklt : k < s1.length := by
      by_contra hge
      push_neg at hge
      rw [List.drop_eq_nil_iff.mpr hge] at hrest
      exact (List.cons_ne_nil a rest) hrest
    have ha : a = s1.getD k ' ' := by
      have h0 : (s1.drop k)[0]? = some a := by rw [← hrest]; simp
      rw [List.getElem?_drop, Nat.add_zero] at h0
      simp [List.getD, h0]
    have hrest2 : rest = s1.drop (k + 1) := by
      have := congrArg List.tail hrest
      simpa [List.tail_drop] using this
    rw [rowSpec_cons s1 s2 i (k + 1) (by omega)]
    simp only [levRowAux]
    rw [rowSpec_cons s1 s2 (i + 1) (k + 1) (by omega)]
    have hcell :
        (if s2.getD i ' ' = a then prefD s1 s2 i k
         else min (prefD s1 s2 i k + 1)
           (min (prefD s1 s2 (i + 1) k + 1) (prefD s1 s2 i (k + 1) + 1))) =
        prefD s1 s2 (i + 1) (k + 1) := by
      rw [ha, (prefD_succ_succ s1 s2 i k hi hklt).symm]
    rw [hcell]
    rw [ih (k + 1) hrest2 (by omega)]

theorem levRows_spec (s1 s2 : List Char) :
    ∀ (rest : List Char) (i : Nat), rest = s2.drop i → i ≤ s2.length →
      levRows s1 i (rowSpec s1 s2 i 0) rest = rowSpec s1 s2 s2.length 0 := by
  intro rest
  induction rest with
  | nil =>
    intro i hrest hi
    have hi2 : s2.length ≤ i := by
      by_contra hlt
      push_neg at hlt
      have hne : s2.drop i ≠ [] := by
        simp [List.drop_eq_nil_iff]
        omega
      exact hne hrest.symm
    have : i = s2.length := le_antisymm hi hi2
    subst this
    rfl
  | cons b bs ih =>
    intro i hrest hi
    have hilt : i < s2.length := by
      by_contra hge
      push_neg at hge
      rw [List.drop_eq_nil_iff.mpr hge] at hrest
      exact (List.cons_ne_nil b bs) hrest
    have hb : b = s2.getD i ' ' := by
      have h0 : (s2.drop i)[0]? = some b := by rw [← hrest]; simp
      rw [List.getElem?_drop, Nat.add_zero] at h0
      simp [List.getD, h0]
    have hbs : bs = s2.drop (i + 1) := by
      have := congrArg List.tail hrest
      simpa [List.tail_drop] using this
    rw [levRows]
    have hhead : (rowSpec s1 s2 i 0).headD 0 = prefD s1 s2 i 0 := by
      rw [rowSpec_cons s1 s2 i 0 (by omega)]
      rfl
    have hdrop : (rowSpec s1 s2 i 0).drop 1 = rowSpec s1 s2 i 1 := by
      rw [rowSpec_cons s1 s2 i 0 (by omega)]
      rfl
    rw [hhead, hdrop]
    have hz : prefD s1 s2 i 0 = i := prefD_zero_right s1 s2 i (by omega)
    have hz1 : prefD s1 s2 (i + 1) 0 = i + 1 := prefD_zero_right s1 s2 (i + 1) (by omega)
    have hrow := levRowAux_spec s1 s2 i hilt s1 0 rfl (by omega)
    rw [show (0 + 1) = 1 from rfl] at hrow
    rw [hz, hz1] at hrow
    rw [hz, hb, hrow]
    have hcons : (i + 1) :: rowSpec s1 s2 (i + 1) 1 = rowSpec s1 s2 (i + 1) 0 := by
      rw [rowSpec_cons s1 s2 (i + 1) 0 (by omega), hz1]
    rw [hcons]
    exact ih (i + 1) hbs (by omega)

theorem levDist_eq_levStd (s1 s2 : List Char) : levDist s1 s2 = levStd s1 s2 := by
  unfold levDist
  have h0 : List.range (s1.length + 1) = rowSpec s1 s2 0 0 := by
    unfold rowSpec
    rw [List.range_eq_range', Nat.sub_zero]
    have hc : (List.range' 0 (s1.length + 1)).map (prefD s1 s2 0) =
        (List.range' 0 (s1.length + 1)).map id := by
      apply List.map_congr_left
      intro j hj
      have hj2 : j ≤ s1.length := by
        have hm := List.mem_range'_1.mp hj
        omega
      simp [prefD_zero_left s1 s2 j hj2]
    rw [hc, List.map_id]
  rw [h0, levRows_spec s1 s2 s2 0 rfl (by omega)]
  have hget : (rowSpec s1 s2 s2.length 0).getD s1.length 0 = prefD s1 s2 s2.length s1.length := by
    unfold rowSpec
    have h1 : (List.range' 0 (s1.length + 1 - 0))[s1.length]? = some s1.length := by
      rw [List.getElem?_range' 0 1 (by omega)]
      simp
    rw [List.getD_eq_getElem?_getD, List.getElem?_map, h1]
    rfl
  rw [hget]
  unfold prefD
  rw [List.take_length, List.take_length]
  rw [levCode_eq_levStd, levStd_rev]

theorem calculateSimilarity_self (a : List Char) : calculateSimilarity a a = 1 := by
  unfold calculateSimilarity
  by_cases h : max a.length a.length = 0
  · rw [if_pos h]
  · rw [if_neg h, levDist_eq_levStd, levStd_self]
    have hpos : 0 < max a.length a.length := Nat.pos_of_ne_zero h
    have hQ : ((max a.length a.length : Nat) : Rat) ≠ 0 := by
      exact_mod_cast Nat.pos_iff_ne_zero.mp hpos
    rw [Nat.cast_zero, sub_zero]
    exact div_self hQ

theorem calculateSimilarity_bounds (a b : List Char) :
    0 ≤ calculateSimilarity a b ∧ calculateSimilarity a b ≤ 1 := by
  unfold calculateSimilarity
  by_cases h : max a.length b.length = 0
  · rw [if_pos h]; norm_num
  · rw [if_neg h]
    have hpos : (0 : Rat) < ((max a.length b.length : Nat) : Rat) := by
      have : 0 < max a.length b.length := Nat.pos_of_ne_zero h
      exact_mod_cast this
    have hle : ((levDist a b : Nat) : Rat) ≤ ((max a.length b.length : Nat) : Rat) := by
      rw [levDist_eq_levStd]
      exact_mod_cast levStd_le_max a b
    have hd0 : (0 : Rat) ≤ ((levDist a b : Nat) : Rat) := by positivity
    constructor
    · apply div_nonneg _ (le_of_lt hpos)
      linarith
    · rw [div_le_one hpos]
      linarith

theorem calculateSimilarity_eq_levStd (a b : List Char) :
    calculateSimilarity a b =
      if max a.length b.length = 0 then 1
      else 1 - ((levStd a b : Nat) : Rat) / ((max a.length b.length : Nat) : Rat) := by
  unfold calculateSimilarity
  by_cases h : max a.length b.length = 0
  · rw [if_pos h, if_pos h]
  · rw [if_neg h, if_neg h, levDist_eq_levStd]
    have hQ : ((max a.length b.length : Nat) : Rat) ≠ 0 := by
      have : 0 < max a.length b.length := Nat.pos_of_ne_zero h
      exact_mod_cast Nat.pos_iff_ne_zero.mp this
    rw [sub_div, div_self hQ]

/-! ## Basic facts about the JavaScript number model -/

theorem JSNum.add_nan_right (x : JSNum) : x.add JSNum.nan = JSNum.nan := by
  cases x <;> rfl

theorem JSNum.nan_add_left (x : JSNum) : JSNum.nan.add x = JSNum.nan := by
  cases x <;> rfl

theorem JSNum.mul_nan_left (x : JSNum) : JSNum.nan.mul x = JSNum.nan := by
  cases x <;> rfl

theorem JSNum.jmin_nan_left (x : JSNum) : JSNum.nan.jmin x = JSNum.nan := by
  cases x <;> rfl

theorem JSNum.div_nan_left (x : JSNum) : JSNum.nan.div x = JSNum.nan := by
  cases x <;> rfl

theorem JSNum.mul_fin_one (x : JSNum) : x.mul (JSNum.fin 1) = x := by
  cases x with
  | fin a => simp [JSNum.mul]
  | inf => simp [JSNum.mul]
  | ninf => simp [JSNum.mul]
  | nan => rfl

theorem JSNum.ltb_irrefl (x : JSNum) : JSNum.ltb x x = false := by
  cases x <;> simp [JSNum.ltb]

/-- The comparator test `b.score - a.score < 0` agrees with the direct
    comparison `b.score < a.score` on every pair of JavaScript numbers. -/
theorem JSNum.ltb_sub_zero (u v : JSNum) :
    JSNum.ltb (u.sub v) (JSNum.fin 0) = JSNum.ltb u v := by
  cases u <;> cases v <;> simp [JSNum.sub, JSNum.ltb] <;> omega

/-! ## The stable sort returns the earliest maximum -/

theorem jsSortStable_head_spec (sl : List (MovieRecord × JSNum)) :
    (jsSortStable scoreDescPrec sl).head? = specFirstBest sl := by
  induction sl with
  | nil => rfl
  | cons x xs ih =>
    rw [jsSortStable, specFirstBest]
    cases hs : jsSortStable scoreDescPrec xs with
    | nil =>
      rw [hs] at ih
      simp only [List.head?] at ih
      rw [← ih]
      rfl
    | cons h t =>
      rw [hs] at ih
      simp only [List.head?] at ih
      rw [← ih]
      show (jsInsert scoreDescPrec x (h :: t)).head? = _
      rw [jsInsert]
      by_cases hp : scoreDescPrec h x = true
      · rw [if_pos hp]
        have hg : JSNum.gtb h.2 x.2 = true := by
          show JSNum.ltb x.2 h.2 = true
          rw [← JSNum.ltb_sub_zero]
          exact hp
        simp [hg]
      · rw [if_neg hp]
        have hg : JSNum.gtb h.2 x.2 = false := by
          show JSNum.ltb x.2 h.2 = false
          rw [← JSNum.ltb_sub_zero]
          simpa [scoreDescPrec] using hp
        simp [hg]

/-! ## Claim theorems -/

/-- C8: invoking the ranker on an empty record list is not an error: for
    every query string, `findBestMatch [] searchTitle` returns `null` (here
    `none`) and never throws. -/
theorem claim_C8_empty_records (searchTitle : List Char) :
    findBestMatch [] searchTitle = none := rfl

/-- C7: the descending sort by `totalScore` in `findBestMatch` is stable:
    the function returns the first record attaining the maximal score
    (`specFirstBest`, which keeps the earlier record on every tie), and in
    particular, of two records with equal `totalScore` it returns the one
    appearing earlier in the input list. -/
theorem claim_C7_ranking_stability :
    (∀ (results : List MovieRecord) (searchTitle : List Char),
      findBestMatch results searchTitle =
        (if results.length = 0 then none
         else specFirstBest
           (results.map (fun movie => (movie, totalScore searchTitle movie))))) ∧
    (∀ (searchTitle : List Char) (r1 r2 : MovieRecord),
      totalScore searchTitle r1 = totalScore searchTitle r2 →
      findBestMatch [r1, r2] searchTitle = some (r1, totalScore searchTitle r1)) := by
  constructor
  · intro results searchTitle
    unfold findBestMatch
    by_cases h : results.length = 0
    · rw [if_pos h, if_pos h]
    · rw [if_neg h, if_neg h]
      exact jsSortStable_head_spec _
  · intro searchTitle r1 r2 heq
    unfold findBestMatch
    rw [if_neg (by simp)]
    show (jsInsert scoreDescPrec (r1, totalScore searchTitle r1)
      (jsInsert scoreDescPrec (r2, totalScore searchTitle r2) [])).head? = _
    rw [jsInsert, jsInsert]
    have hp : scoreDescPrec (r2, totalScore searchTitle r2)
        (r1, totalScore searchTitle r1) = false := by
      show JSNum.ltb ((totalScore searchTitle r1).sub (totalScore searchTitle r2))
        (JSNum.fin 0) = false
      rw [JSNum.ltb_sub_zero, heq, JSNum.ltb_irrefl]
    rw [if_neg (by simp [hp])]
    rfl

/-- C7 witness: two distinct records with equal totalScore (titles "ab" and
    "ba" are both at distance 1 from the query "aa"); `findBestMatch`
    returns the first. -/
theorem claim_C7_ranking_stability_witness :
    findBestMatch
      [{ title := ['a','b'], original_title := none,
         popularity := some 50, vote_count := some 500 },
       { title := ['b','a'], original_title := none,
         popularity := some 50, vote_count := some 500 }] ['a','a'] =
    some ({ title := ['a','b'], original_title := none,
            popularity := some 50, vote_count := some 500 },
      totalScore ['a','a']
        { title := ['a','b'], original_title := none,
          popularity := some 50, vote_count := some 500 }) := by
  exact claim_C7_ranking_stability.2 ['a','a'] _ _ rfl

/-- C2 counterexample: a record with the optional `popularity` field absent.
    The claim says `popScore` falls back to 0 and `totalScore` is a
    well-defined number; in the code `movie.popularity / 100` is `NaN`, so
    the record's `totalScore` is `NaN` — not the finite value
    `specTotalScore` that the claimed 0-fallback would produce. -/
theorem claim_C2_counterexample :
    totalScore ['a']
      { title := ['a'], original_title := none,
        popularity := none, vote_count := some 500 } = JSNum.nan ∧
    JSNum.nan ≠ JSNum.fin (specTotalScore ['a']
      { title := ['a'], original_title := none,
        popularity := none, vote_count := some 500 }) := by
  constructor
  · simp only [totalScore, optNum, JSNum.div_nan_left, JSNum.jmin_nan_left,
      JSNum.mul_nan_left, JSNum.add_nan_right, JSNum.nan_add_left]
  · simp

/-- C2 (amended): `popScore = min(popularity/100, 1)` and
    `voteScore = min(vote_count/1000, 1)` hold when the fields are present,
    and then `totalScore` is the well-defined number
    `0.7*textScore + 0.2*popScore + 0.1*voteScore` (i.e. `specTotalScore`);
    but when `popularity` or `vote_count` is absent there is no 0 fallback:
    the corresponding score and the whole `totalScore` are `NaN`. -/
theorem claim_C2_total_score (searchTitle : List Char) (movie : MovieRecord) :
    (movie.popularity = none → totalScore searchTitle movie = JSNum.nan) ∧
    (movie.vote_count = none → totalScore searchTitle movie = JSNum.nan) ∧
    (∀ p v, movie.popularity = some p → movie.vote_count = some v →
      totalScore searchTitle movie = JSNum.fin (specTotalScore searchTitle movie)) := by
  refine ⟨fun hp => ?_, fun hv => ?_, fun p v hp hv => ?_⟩
  · unfold totalScore
    rw [hp]
    simp only [optNum, JSNum.div_nan_left, JSNum.jmin_nan_left,
      JSNum.mul_nan_left, JSNum.add_nan_right, JSNum.nan_add_left]
  · unfold totalScore
    rw [hv]
    simp only [optNum, JSNum.div_nan_left, JSNum.jmin_nan_left,
      JSNum.mul_nan_left, JSNum.add_nan_right]
  · unfold totalScore specTotalScore
    rw [hp, hv]
    have h100 : (100 : ℚ) ≠ 0 := by norm_num
    have h1000 : (1000 : ℚ) ≠ 0 := by norm_num
    cases hot : movie.original_title with
    | none =>
      simp only [optNum, JSNum.div, if_neg h100, if_neg h1000, JSNum.jmin, JSNum.jmax,
        JSNum.mul, JSNum.add, JSNum.fin.injEq]
      ring
    | some t =>
      by_cases hte : t.isEmpty
      · simp only [hte, if_pos, optNum, JSNum.div, if_neg h100, if_neg h1000, JSNum.jmin,
          JSNum.jmax, JSNum.mul, JSNum.add, JSNum.fin.injEq, if_true]
        ring
      · simp only [hte, optNum, JSNum.div, if_neg h100, if_neg h1000, JSNum.jmin,
          JSNum.jmax, JSNum.mul, JSNum.add, JSNum.fin.injEq, if_false, Bool.false_eq_true]
        ring

/-- C2 witness: a record with both optional fields present gets the finite
    claimed score. -/
theorem claim_C2_total_score_witness :
    totalScore ['a']
      { title := ['a'], original_title := none,
        popularity := some 50, vote_count := some 500 } =
    JSNum.fin (specTotalScore ['a']
      { title := ['a'], original_title := none,
        popularity := some 50, vote_count := some 500 }) :=
  (claim_C2_total_score ['a'] _).2.2 50 500 rfl rfl

/-- C5: `calculateSimilarity` always lies in `[0, 1]`; it is 1 on every pair
    of equal strings (in particular on every non-empty `a` paired with
    itself, and on the pair of empty strings); and it equals the normalized
    Levenshtein similarity `1 - editDistance/max(len1, len2)`, where
    `levStd` is the textbook unit-cost insert/delete/substitute edit
    distance, with value 1 when both strings are empty. -/
theorem claim_C5_similarity :
    (∀ a b : List Char,
      0 ≤ calculateSimilarity a b ∧ calculateSimilarity a b ≤ 1) ∧
    (∀ a : List Char, a ≠ [] → calculateSimilarity a a = 1) ∧
    calculateSimilarity [] [] = 1 ∧
    (∀ a b : List Char, calculateSimilarity a b =
      if max a.length b.length = 0 then 1
      else 1 - ((levStd a b : Nat) : ℚ) / ((max a.length b.length : Nat) : ℚ)) :=
  ⟨calculateSimilarity_bounds, fun a _ => calculateSimilarity_self a,
    calculateSimilarity_self [], calculateSimilarity_eq_levStd⟩

/-- C5 witness: the non-emptiness hypothesis discharged at the
    one-character string. -/
theorem claim_C5_similarity_witness :
    (['a'] : List Char) ≠ [] ∧ calculateSimilarity ['a'] ['a'] = 1 :=
  ⟨by decide, claim_C5_similarity.2.1 ['a'] (by decide)⟩

/-- C1: the spec says a detection whose quad has fewer than 4 points is
    skipped during metric computation and the title-extraction pipeline
    completes without a fatal error on such input.  The first half holds:
    `calculateBlockMetrics` returns `null` for every quad with fewer than 4
    vertices.  But the pipeline does not survive it: the scoring map of
    `identifyTitleBySpatialLogic` immediately calls `scorePosition` on the
    `null` metrics, which throws a TypeError, so `extractGenericTitle` on a
    detection with a 3-point quad is a fatal error (`Except.error ()`)
    rather than a completed run. -/
theorem claim_C1_short_quad :
    (∀ (vertices : List Point) (ib : ImageBounds), vertices.length < 4 →
      calculateBlockMetrics vertices ib = none) ∧
    extractGenericTitle
      [{ description := ['A','B'],
         vertices := [⟨0, 0⟩, ⟨10, 0⟩, ⟨10, 5⟩] }] = Except.error () := by
  constructor
  · intro vertices ib h
    unfold calculateBlockMetrics
    rw [if_pos h]
  · rfl

/-- C1 witness: a 3-point quad satisfies the length hypothesis and is given
    `null` metrics. -/
theorem claim_C1_short_quad_witness :
    ([⟨0, 0⟩, ⟨10, 0⟩, ⟨10, 5⟩] : List Point).length < 4 ∧
    calculateBlockMetrics [⟨0, 0⟩, ⟨10, 0⟩, ⟨10, 5⟩]
      (calculateImageBounds []) = none :=
  ⟨by decide, claim_C1_short_quad.1 _ _ (by decide)⟩

/-! ## Termination structure of the cross-group merge loop -/

theorem combineLoop_length {α : Type} (should : α → α → Bool) (merge : α → α → α)
    (i j : Nat) (ch : Bool) (l : List α) :
    (combineLoop should merge i j ch l).length ≤ l.length ∧
    (1 ≤ l.length → 1 ≤ (combineLoop should merge i j ch l).length) := by
  induction i, j, ch, l using combineLoop.induct should merge with
  | case1 i j ch l hij hsc ih =>
    rw [combineLoop.eq_def, dif_pos hij, if_pos hsc]
    have h1 := hij.1
    have h2 := hij.2
    have hlen : ((l.set i (merge (l.get ⟨i, Nat.lt_trans hij.2 hij.1⟩)
        (l.get ⟨j, hij.1⟩))).eraseIdx j).length = l.length - 1 := by
      simp [List.length_eraseIdx, h1]
    constructor
    · exact le_trans ih.1 (by omega)
    · intro hone
      apply ih.2
      omega
  | case2 i j ch l hij hsc ih =>
    rw [combineLoop.eq_def, dif_pos hij, if_neg hsc]
    exact ih
  | case3 i j ch l hij hnext ih =>
    rw [combineLoop.eq_def, dif_neg hij, dif_pos hnext]
    exact ih
  | case4 i j l hij hnext ih =>
    rw [combineLoop.eq_def, dif_neg hij, dif_neg hnext, dif_pos rfl]
    exact ih
  | case5 i j ch l hij hnext hch =>
    rw [combineLoop.eq_def, dif_neg hij, dif_neg hnext, dif_neg hch]
    exact ⟨le_refl _, fun h => h⟩

theorem combineRestarts_bound {α : Type} (should : α → α → Bool) (merge : α → α → α)
    (i j : Nat) (ch : Bool) (l : List α) :
    (ch = true → 1 ≤ l.length) →
    combineRestarts should merge i j ch l ≤ if ch then l.length else l.length - 1 := by
  induction i, j, ch, l using combineRestarts.induct should merge with
  | case1 i j ch l hij hsc ih =>
    intro hc
    rw [combineRestarts.eq_def, dif_pos hij, if_pos hsc]
    have h1 := hij.1
    have h2 := hij.2
    have h0 := ih (by intro hx; simp [List.length_eraseIdx, List.length_set, h1]; omega)
    simp only [List.length_eraseIdx, List.length_set, h1, eq_self_iff_true, if_true] at h0
    split <;> omega
  | case2 i j ch l hij hsc ih =>
    intro hc
    rw [combineRestarts.eq_def, dif_pos hij, if_neg hsc]
    exact ih hc
  | case3 i j ch l hij hnext ih =>
    intro hc
    rw [combineRestarts.eq_def, dif_neg hij, dif_pos hnext]
    exact ih hc
  | case4 i j l hij hnext ih =>
    intro hc
    rw [combineRestarts.eq_def, dif_neg hij, dif_neg hnext, dif_pos rfl]
    have h0 := ih (fun h => absurd h (by simp))
    simp only [Bool.false_eq_true, if_false] at h0
    have h1 : 1 ≤ l.length := hc rfl
    simp only [eq_self_iff_true, if_true]
    omega
  | case5 i j ch l hij hnext hch =>
    intro hc
    rw [combineRestarts.eq_def, dif_neg hij, dif_neg hnext, dif_neg hch]
    split <;> omega

/-- C4: the cross-group merge loop of `combineRelatedTitleParts` terminates
    with the claimed resource bounds: every merge step strictly decreases
    the group count (one group is overwritten in place and one is removed),
    the group count never increases overall and stays bounded below by 1,
    and the number of do-while passes that perform at least one merge (and
    hence cause a repeat) is at most `n - 1` for `n` initial groups — the
    loop ends with the first full pass that performs zero merges. -/
theorem claim_C4_merge_termination :
    (∀ (l : List TextGroup) (i j : Nat) (h1 : j < l.length) (h2 : i < j),
      ((l.set i (mergeGroups (l.get ⟨i, Nat.lt_trans h2 h1⟩)
        (l.get ⟨j, h1⟩))).eraseIdx j).length < l.length) ∧
    (∀ l : List TextGroup, (combineRelatedTitleParts l).length ≤ l.length ∧
      (1 ≤ l.length → 1 ≤ (combineRelatedTitleParts l).length)) ∧
    (∀ l : List TextGroup,
      combineRestarts shouldCombineGroups mergeGroups 0 1 false l ≤ l.length - 1) := by
  refine ⟨fun l i j h1 h2 => ?_, fun l => ?_, fun l => ?_⟩
  · simp only [List.length_eraseIdx, List.length_set, h1, eq_self_iff_true, if_true]
    omega
  · exact combineLoop_length shouldCombineGroups mergeGroups 0 1 false l
  · have h := combineRestarts_bound shouldCombineGroups mergeGroups 0 1 false l (by simp)
    simpa using h

/-- C4 witness: the lower bound at a concrete one-group list (the group
    carries trivial all-zero metrics), and the pass-count bound. -/
theorem claim_C4_merge_termination_witness :
    1 ≤ (combineRelatedTitleParts
      [{ first := { text := ['A'],
                    metrics := { left := 0, right := 0, top := 0, bottom := 0,
                                 centerX := 0, centerY := 0, relativeX := JSNum.fin 0,
                                 relativeY := JSNum.fin 0, width := 0, height := 0,
                                 aspect := JSNum.fin 0, area := 0,
                                 relativeArea := JSNum.fin 0 },
                    score := JSNum.fin 0 },
         rest := [], text := ['A'], score := JSNum.fin 0,
         metrics := { left := 0, right := 0, top := 0, bottom := 0,
                      centerX := 0, centerY := 0, relativeX := JSNum.fin 0,
                      relativeY := JSNum.fin 0, width := 0, height := 0,
                      aspect := JSNum.fin 0, area := 0,
                      relativeArea := JSNum.fin 0 } }]).length ∧
    (∀ l : List TextGroup,
      combineRestarts shouldCombineGroups mergeGroups 0 1 false l ≤ l.length - 1) :=
  ⟨(claim_C4_merge_termination.2.1 _).2 (by decide), claim_C4_merge_termination.2.2⟩

/-! ## The word-count step of the final group scoring -/

theorem wordCountStep (s : JSNum) (n : Nat) :
    (if n = 2 then s.mul (JSNum.fin 3) else if n ≤ 4 then s.mul (JSNum.fin 2) else s)
      = s.mul (JSNum.fin (wordCountFactor n)) := by
  unfold wordCountFactor
  split_ifs <;> first | rfl | exact (JSNum.mul_fin_one s).symm

theorem finalGroupScore_decomp (g : TextGroup)
    (h : isKeyboardRelatedText g.text = false) :
    finalGroupScore g =
      (finalGroupScorePreWC g).mul (JSNum.fin (wordCountFactor (wordCount g.text))) := by
  unfold finalGroupScore
  simp only [h, Bool.false_eq_true, if_false]
  exact wordCountStep (finalGroupScorePreWC g) (wordCount g.text)

/-- C9 counterexample: a non-keyboard one-word group (text `"HELLO"`,
    relative position (0.5, 0.2), block score 100).  The claim says a
    single-word group receives neither word-count multiplier, which would
    leave the pre-word-count score 3960; the code's
    `else if (wordCount <= 4)` branch also catches `wordCount === 1` and
    doubles the score to 7920. -/
theorem claim_C9_counterexample :
    finalGroupScore
      { first := { text := ['H','E','L','L','O'],
                   metrics := { left := 0, right := 100, top := 10, bottom := 30,
                                centerX := 50, centerY := 20,
                                relativeX := JSNum.fin 0.5, relativeY := JSNum.fin 0.2,
                                width := 100, height := 20, aspect := JSNum.fin 5,
                                area := 2000, relativeArea := JSNum.fin 0.05 },
                   score := JSNum.fin 100 },
        rest := [], text := ['H','E','L','L','O'], score := JSNum.fin 100,
        metrics := { left := 0, right := 100, top := 10, bottom := 30,
                     centerX := 50, centerY := 20,
                     relativeX := JSNum.fin 0.5, relativeY := JSNum.fin 0.2,
                     width := 100, height := 20, aspect := JSNum.fin 5,
                     area := 2000, relativeArea := JSNum.fin 0.05 } } = JSNum.fin 7920 ∧
    (finalGroupScorePreWC
      { first := { text := ['H','E','L','L','O'],
                   metrics := { left := 0, right := 100, top := 10, bottom := 30,
                                centerX := 50, centerY := 20,
                                relativeX := JSNum.fin 0.5, relativeY := JSNum.fin 0.2,
                                width := 100, height := 20, aspect := JSNum.fin 5,
                                area := 2000, relativeArea := JSNum.fin 0.05 },
                   score := JSNum.fin 100 },
        rest := [], text := ['H','E','L','L','O'], score := JSNum.fin 100,
        metrics := { left := 0, right := 100, top := 10, bottom := 30,
                     centerX := 50, centerY := 20,
                     relativeX := JSNum.fin 0.5, relativeY := JSNum.fin 0.2,
                     width := 100, height := 20, aspect := JSNum.fin 5,
                     area := 2000, relativeArea := JSNum.fin 0.05 } }).mul
      (JSNum.fin (specWordCountFactor (wordCount ['H','E','L','L','O']))) =
      JSNum.fin 3960 ∧
    JSNum.fin (7920 : ℚ) ≠ JSNum.fin (3960 : ℚ) := by
  refine ⟨?_, ?_, by simp⟩
  · unfold finalGroupScore finalGroupScorePreWC
    rw [show isKeyboardRelatedText ['H','E','L','L','O'] = false from by decide]
    rw [show isUpperCaseText ['H','E','L','L','O'] = true from by decide]
    rw [show hasArticle ['H','E','L','L','O'] = false from by decide]
    rw [show isTitleFormat ['H','E','L','L','O'] = true from by decide]
    rw [show wordCount ['H','E','L','L','O'] = 1 from by decide]
    norm_num [JSNum.ltb, JSNum.mul, JSNum.add, JSNum.sub, JSNum.jabs]
  · rw [show wordCount ['H','E','L','L','O'] = 1 from by decide]
    rw [show specWordCountFactor 1 = 1 from by norm_num [specWordCountFactor]]
    rw [JSNum.mul_fin_one]
    unfold finalGroupScorePreWC
    rw [show isKeyboardRelatedText ['H','E','L','L','O'] = false from by decide]
    rw [show isUpperCaseText ['H','E','L','L','O'] = true from by decide]
    rw [show hasArticle ['H','E','L','L','O'] = false from by decide]
    rw [show isTitleFormat ['H','E','L','L','O'] = true from by decide]
    norm_num [JSNum.ltb, JSNum.mul, JSNum.add, JSNum.sub, JSNum.jabs]

/-- C9 (amended): for every non-keyboard group the final score is the
    pre-word-count score times `wordCountFactor` of the word count, where
    the factor is 3 for exactly 2 words and 2 for 3–4 words as claimed —
    but also 2 for a single word (the code's `else if (wordCount <= 4)`
    catches `wordCount === 1`), and 1 only from 5 words on. -/
theorem claim_C9_word_count :
    (∀ g : TextGroup, isKeyboardRelatedText g.text = false →
      finalGroupScore g = (finalGroupScorePreWC g).mul
        (JSNum.fin (wordCountFactor (wordCount g.text)))) ∧
    wordCountFactor 2 = 3 ∧ wordCountFactor 3 = 2 ∧ wordCountFactor 4 = 2 ∧
    wordCountFactor 1 = 2 ∧ (∀ n, 5 ≤ n → wordCountFactor n = 1) := by
  refine ⟨finalGroupScore_decomp, by norm_num [wordCountFactor],
    by norm_num [wordCountFactor], by norm_num [wordCountFactor],
    by norm_num [wordCountFactor], fun n hn => ?_⟩
  unfold wordCountFactor
  rw [if_neg (by omega), if_neg (by omega)]

/-- C9 witness: the decomposition at a concrete non-keyboard group and the
    factor at 7 words. -/
theorem claim_C9_word_count_witness :
    isKeyboardRelatedText ['H','e','l','l','o'] = false ∧
    finalGroupScore
      { first := { text := ['H','e','l','l','o'],
                   metrics := { left := 0, right := 0, top := 0, bottom := 0,
                                centerX := 0, centerY := 0, relativeX := JSNum.fin 0,
                                relativeY := JSNum.fin 0, width := 0, height := 0,
                                aspect := JSNum.fin 0, area := 0,
                                relativeArea := JSNum.fin 0 },
                   score := JSNum.fin 0 },
        rest := [], text := ['H','e','l','l','o'], score := JSNum.fin 0,
        metrics := { left := 0, right := 0, top := 0, bottom := 0,
                     centerX := 0, centerY := 0, relativeX := JSNum.fin 0,
                     relativeY := JSNum.fin 0, width := 0, height := 0,
                     aspect := JSNum.fin 0, area := 0,
                     relativeArea := JSNum.fin 0 } } =
      (finalGroupScorePreWC
        { first := { text := ['H','e','l','l','o'],
                     metrics := { left := 0, right := 0, top := 0, bottom := 0,
                                  centerX := 0, centerY := 0, relativeX := JSNum.fin 0,
                                  relativeY := JSNum.fin 0, width := 0, height := 0,
                                  aspect := JSNum.fin 0, area := 0,
                                  relativeArea := JSNum.fin 0 },
                     score := JSNum.fin 0 },
          rest := [], text := ['H','e','l','l','o'], score := JSNum.fin 0,
          metrics := { left := 0, right := 0, top := 0, bottom := 0,
                       centerX := 0, centerY := 0, relativeX := JSNum.fin 0,
                       relativeY := JSNum.fin 0, width := 0, height := 0,
                       aspect := JSNum.fin 0, area := 0,
                       relativeArea := JSNum.fin 0 } }).mul
        (JSNum.fin (wordCountFactor (wordCount ['H','e','l','l','o']))) ∧
    (5 : Nat) ≤ 7 ∧ wordCountFactor 7 = 1 :=
  ⟨by decide, claim_C9_word_count.1 _ (by decide), by decide,
    claim_C9_word_count.2.2.2.2.2 7 (by decide)⟩

/-- C3 counterexample: a single detection whose four quad points coincide at
    (10, 20).  The image bounds have width and height 0 as the claim's
    premise requires, but the relative position is not the claimed default
    0.5: the code divides by the zero width/height, giving `Infinity` for
    both `relative.x` and `relative.y`. -/
theorem claim_C3_counterexample :
    (calculateImageBounds
      [{ description := ['A','B'],
         vertices := [⟨10, 20⟩, ⟨10, 20⟩, ⟨10, 20⟩, ⟨10, 20⟩] }]).width = JSNum.fin 0 ∧
    (calculateImageBounds
      [{ description := ['A','B'],
         vertices := [⟨10, 20⟩, ⟨10, 20⟩, ⟨10, 20⟩, ⟨10, 20⟩] }]).height = JSNum.fin 0 ∧
    (calculateBlockMetrics [⟨10, 20⟩, ⟨10, 20⟩, ⟨10, 20⟩, ⟨10, 20⟩]
      (calculateImageBounds
        [{ description := ['A','B'],
           vertices := [⟨10, 20⟩, ⟨10, 20⟩, ⟨10, 20⟩, ⟨10, 20⟩] }])).map
      (fun m => (m.relativeX, m.relativeY)) = some (JSNum.inf, JSNum.inf) ∧
    JSNum.inf ≠ JSNum.fin (1/2) := by
  refine ⟨?_, ?_, ?_, by simp⟩ <;>
    norm_num [calculateImageBounds, calculateBlockMetrics, JSNum.jmin, JSNum.jmax,
      JSNum.sub, JSNum.add, JSNum.div, JSNum.mul]

/-- C3 (amended): when the image bounds have zero width and height, there is
    no 0.5 default: every metrics record the code produces has
    `relative.x` and `relative.y` equal to the JavaScript division of the
    center coordinate by zero — `Infinity`, `-Infinity` or `NaN` according
    to the sign of the center — and in particular never any finite value
    (so never 0.5). -/
theorem claim_C3_zero_bounds (vertices : List Point) (ib : ImageBounds)
    (hw : ib.width = JSNum.fin 0) (hh : ib.height = JSNum.fin 0) (m : BlockMetrics)
    (hm : calculateBlockMetrics vertices ib = some m) :
    (m.relativeX = if 0 < m.centerX then JSNum.inf
      else if m.centerX < 0 then JSNum.ninf else JSNum.nan) ∧
    (m.relativeY = if 0 < m.centerY then JSNum.inf
      else if m.centerY < 0 then JSNum.ninf else JSNum.nan) ∧
    (∀ q : ℚ, m.relativeX ≠ JSNum.fin q) ∧ (∀ q : ℚ, m.relativeY ≠ JSNum.fin q) := by
  unfold calculateBlockMetrics at hm
  by_cases hlen : vertices.length < 4
  · rw [if_pos hlen] at hm
    exact absurd hm (by simp)
  · rw [if_neg hlen] at hm
    cases vertices with
    | nil => exact absurd hm (by simp)
    | cons v vs =>
      simp only [Option.some.injEq] at hm
      subst hm
      rw [hw, hh]
      simp only [JSNum.div]
      norm_num
      refine ⟨fun q => ?_, fun q => ?_⟩ <;> split_ifs <;> simp

/-- C3 witness: the coincident-quad metrics under explicit zero-size bounds;
    its `relative.x` is not 0.5. -/
theorem claim_C3_zero_bounds_witness :
    calculateBlockMetrics [⟨10, 20⟩, ⟨10, 20⟩, ⟨10, 20⟩, ⟨10, 20⟩]
      { width := JSNum.fin 0, height := JSNum.fin 0,
        centerX := JSNum.fin 50, centerY := JSNum.fin 50 } =
      some { left := 10, right := 10, top := 20, bottom := 20,
             centerX := 10, centerY := 20,
             relativeX := JSNum.inf, relativeY := JSNum.inf,
             width := 0, height := 0, aspect := JSNum.nan,
             area := 0, relativeArea := JSNum.nan } ∧
    ({ left := 10, right := 10, top := 20, bottom := 20,
       centerX := 10, centerY := 20,
       relativeX := JSNum.inf, relativeY := JSNum.inf,
       width := 0, height := 0, aspect := JSNum.nan,
       area := 0, relativeArea := JSNum.nan } : BlockMetrics).relativeX ≠
      JSNum.fin (1/2) := by
  constructor
  · norm_num [calculateBlockMetrics, JSNum.div, JSNum.mul]
  · exact (claim_C3_zero_bounds [⟨10, 20⟩, ⟨10, 20⟩, ⟨10, 20⟩, ⟨10, 20⟩]
      { width := JSNum.fin 0, height := JSNum.fin 0,
        centerX := JSNum.fin 50, centerY := JSNum.fin 50 } rfl rfl
      { left := 10, right := 10, top := 20, bottom := 20,
        centerX := 10, centerY := 20,
        relativeX := JSNum.inf, relativeY := JSNum.inf,
        width := 0, height := 0, aspect := JSNum.nan,
        area := 0, relativeArea := JSNum.nan }
      (by norm_num [calculateBlockMetrics, JSNum.div, JSNum.mul])).2.2.1 (1/2)

/-! ## What the grouping walk actually produces -/

theorem innerScan_mem (seed : ScoredBlock) (ib : ImageBounds) :
    ∀ (bs : List ScoredBlock) (tags : List Bool) (b : ScoredBlock),
      b ∈ (innerScan seed ib bs tags).1 →
      areBlocksAdjacent seed.metrics b.metrics ib = true := by
  intro bs
  induction bs with
  | nil =>
    intro tags b hb
    simp [innerScan] at hb
  | cons x xs ih =>
    intro tags b hb
    rw [innerScan] at hb
    by_cases hc : (!tags.headD false && areBlocksAdjacent seed.metrics x.metrics ib) = true
    · rw [if_pos hc] at hb
      rcases List.mem_cons.mp hb with h1 | h2
      · subst h1
        exact (Bool.and_eq_true _ _).mp hc |>.2
      · exact ih tags.tail b h2
    · rw [if_neg hc] at hb
      exact ih tags.tail b hb

theorem outerGroups_spec (ib : ImageBounds) :
    ∀ (bs : List ScoredBlock) (tags : List Bool) (g : TextGroup),
      g ∈ outerGroups ib bs tags →
      g.metrics = g.first.metrics ∧
      g.text = g.rest.foldl (fun t o => t ++ ' ' :: o.text) g.first.text ∧
      g.score = g.rest.foldl (fun s o => s.add o.score) g.first.score ∧
      (∀ b ∈ g.rest, areBlocksAdjacent g.first.metrics b.metrics ib = true) := by
  intro bs
  induction bs with
  | nil =>
    intro tags g hg
    simp [outerGroups] at hg
  | cons x xs ih =>
    intro tags g hg
    rw [outerGroups] at hg
    by_cases ht : tags.headD false = true
    · rw [if_pos ht] at hg
      exact ih tags.tail g hg
    · rw [if_neg ht] at hg
      rcases List.mem_cons.mp hg with h1 | h2
      · subst h1
        exact ⟨rfl, rfl, rfl, fun b hb => innerScan_mem x ib xs tags.tail b hb⟩
      · exact ih _ g h2

/-- C6 (amended): `groupAdjacentBlocks` is a seed-based scan, not the
    claimed running-group walk: it sorts by vertical center (stably), then
    each unprocessed block seeds a group collecting every later unprocessed
    block adjacent *to the seed* under `areBlocksAdjacent`, whose thresholds
    are `imageBounds.height * 0.02` vertically and half the smaller block
    width horizontally (not `max(currentHeight, lastHeight) * 1.5`).  Every
    produced group keeps its seed's metrics, concatenates the members' text
    with single spaces and sums their scores, and all its non-seed members
    are adjacent to the seed. -/
theorem claim_C6_line_grouping (scoredBlocks : List ScoredBlock) (ib : ImageBounds) (g : TextGroup)
    (hg : g ∈ groupAdjacentBlocks scoredBlocks ib) :
    g.metrics = g.first.metrics ∧
    g.text = g.rest.foldl (fun t o => t ++ ' ' :: o.text) g.first.text ∧
    g.score = g.rest.foldl (fun s o => s.add o.score) g.first.score ∧
    (∀ b ∈ g.rest, areBlocksAdjacent g.first.metrics b.metrics ib = true) :=
  outerGroups_spec ib _ _ g hg

/-- C6 counterexample: two stacked blocks of height 10 with vertical
    centers 10 and 22 inside image bounds of height 22.  Under the claimed
    rule the gap 12 does not exceed `max(10, 10) * 1.5 = 15`, so the spec's
    walk (`specLineGrouping`) joins them into one group; the code's
    `areBlocksAdjacent` threshold is `22 * 0.02 = 0.44`, so the code keeps
    them in two separate groups. -/
theorem claim_C6_counterexample :
    (groupAdjacentBlocks
      [{ text := ['A','B'],
         metrics := { left := 30, right := 70, top := 5, bottom := 15,
                      centerX := 50, centerY := 10,
                      relativeX := JSNum.fin 0.5, relativeY := JSNum.fin 0.1,
                      width := 40, height := 10, aspect := JSNum.fin 4,
                      area := 400, relativeArea := JSNum.fin 0.1 },
         score := JSNum.fin 1 },
       { text := ['C','D'],
         metrics := { left := 30, right := 70, top := 17, bottom := 27,
                      centerX := 50, centerY := 22,
                      relativeX := JSNum.fin 0.5, relativeY := JSNum.fin 0.9,
                      width := 40, height := 10, aspect := JSNum.fin 4,
                      area := 400, relativeArea := JSNum.fin 0.1 },
         score := JSNum.fin 2 }]
      { width := JSNum.fin 100, height := JSNum.fin 22,
        centerX := JSNum.fin 50, centerY := JSNum.fin 11 }).length = 2 ∧
    (specLineGrouping
      [{ text := ['A','B'],
         metrics := { left := 30, right := 70, top := 5, bottom := 15,
                      centerX := 50, centerY := 10,
                      relativeX := JSNum.fin 0.5, relativeY := JSNum.fin 0.1,
                      width := 40, height := 10, aspect := JSNum.fin 4,
                      area := 400, relativeArea := JSNum.fin 0.1 },
         score := JSNum.fin 1 },
       { text := ['C','D'],
         metrics := { left := 30, right := 70, top := 17, bottom := 27,
                      centerX := 50, centerY := 22,
                      relativeX := JSNum.fin 0.5, relativeY := JSNum.fin 0.9,
                      width := 40, height := 10, aspect := JSNum.fin 4,
                      area := 400, relativeArea := JSNum.fin 0.1 },
         score := JSNum.fin 2 }]).length = 1 := by
  constructor <;>
    norm_num [groupAdjacentBlocks, jsSortStable, jsInsert, centerYPrec, outerGroups,
      innerScan, areBlocksAdjacent, specLineGrouping, specLineGroupingAux,
      List.replicate, List.headD, List.head?, Option.getD, List.tail,
      JSNum.ltb, JSNum.mul]

/-- C6 witness: the amended description at a singleton block list (the
    produced group is its own seed and keeps the seed's metrics). -/
theorem claim_C6_line_grouping_witness :
    ({ first := { text := ['A'],
                  metrics := { left := 0, right := 0, top := 0, bottom := 0,
                               centerX := 0, centerY := 0, relativeX := JSNum.fin 0,
                               relativeY := JSNum.fin 0, width := 0, height := 0,
                               aspect := JSNum.fin 0, area := 0,
                               relativeArea := JSNum.fin 0 },
                  score := JSNum.fin 0 },
       rest := [], text := ['A'], score := JSNum.fin 0,
       metrics := { left := 0, right := 0, top := 0, bottom := 0,
                    centerX := 0, centerY := 0, relativeX := JSNum.fin 0,
                    relativeY := JSNum.fin 0, width := 0, height := 0,
                    aspect := JSNum.fin 0, area := 0,
                    relativeArea := JSNum.fin 0 } } : TextGroup) ∈
      groupAdjacentBlocks
        [{ text := ['A'],
           metrics := { left := 0, right := 0, top := 0, bottom := 0,
                        centerX := 0, centerY := 0, relativeX := JSNum.fin 0,
                        relativeY := JSNum.fin 0, width := 0, height := 0,
                        aspect := JSNum.fin 0, area := 0,
                        relativeArea := JSNum.fin 0 },
           score := JSNum.fin 0 }]
        { width := JSNum.fin 0, height := JSNum.fin 0,
          centerX := JSNum.fin 0, centerY := JSNum.fin 0 } ∧
    ({ first := { text := ['A'],
                  metrics := { left := 0, right := 0, top := 0, bottom := 0,
                               centerX := 0, centerY := 0, relativeX := JSNum.fin 0,
                               relativeY := JSNum.fin 0, width := 0, height := 0,
                               aspect := JSNum.fin 0, area := 0,
                               relativeArea := JSNum.fin 0 },
                  score := JSNum.fin 0 },
       rest := [], text := ['A'], score := JSNum.fin 0,
       metrics := { left := 0, right := 0, top := 0, bottom := 0,
                    centerX := 0, centerY := 0, relativeX := JSNum.fin 0,
                    relativeY := JSNum.fin 0, width := 0, height := 0,
                    aspect := JSNum.fin 0, area := 0,
                    relativeArea := JSNum.fin 0 } } : TextGroup).metrics =
    ({ first := { text := ['A'],
                  metrics := { left := 0, right := 0, top := 0, bottom := 0,
                               centerX := 0, centerY := 0, relativeX := JSNum.fin 0,
                               relativeY := JSNum.fin 0, width := 0, height := 0,
                               aspect := JSNum.fin 0, area := 0,
                               relativeArea := JSNum.fin 0 },
                  score := JSNum.fin 0 },
       rest := [], text := ['A'], score := JSNum.fin 0,
       metrics := { left := 0, right := 0, top := 0, bottom := 0,
                    centerX := 0, centerY := 0, relativeX := JSNum.fin 0,
                    relativeY := JSNum.fin 0, width := 0, height := 0,
                    aspect := JSNum.fin 0, area := 0,
                    relativeArea := JSNum.fin 0 } } : TextGroup).first.metrics :=
  ⟨List.Mem.head _,
    (claim_C6_line_grouping
      [{ text := ['A'],
         metrics := { left := 0, right := 0, top := 0, bottom := 0,
                      centerX := 0, centerY := 0, relativeX := JSNum.fin 0,
                      relativeY := JSNum.fin 0, width := 0, height := 0,
                      aspect := JSNum.fin 0, area := 0,
                      relativeArea := JSNum.fin 0 },
         score := JSNum.fin 0 }]
      { width := JSNum.fin 0, height := JSNum.fin 0,
        centerX := JSNum.fin 0, centerY := JSNum.fin 0 }
      _ (List.Mem.head _)).1⟩

/-! ## Character-level facts for the `cleanTitle` claims -/

theorem char_eq_iff (c d : Char) : c = d ↔ c.toNat = d.toNat := by
  constructor
  · intro h; rw [h]
  · intro h
    apply Char.eq_of_val_eq
    exact UInt32.eq_of_toBitVec_eq (BitVec.eq_of_toNat_eq h)

theorem char_ofNat_toNat (m : Nat) (h : m < 55296) : (Char.ofNat m).toNat = m := by
  unfold Char.ofNat
  rw [dif_pos (Or.inl h)]
  simp [Char.toNat, Char.ofNatAux, BitVec.toNat_ofNatLt, UInt32.toNat]

theorem isLower_eq (c : Char) :
    c.isLower = (decide (97 ≤ c.toNat) && decide (c.toNat ≤ 122)) := by
  simp [Char.isLower, Char.toNat, UInt32.le_def, BitVec.le_def]
  rfl

theorem isUpper_eq (c : Char) :
    c.isUpper = (decide (65 ≤ c.toNat) && decide (c.toNat ≤ 90)) := by
  simp [Char.isUpper, Char.toNat, UInt32.le_def, BitVec.le_def]
  rfl

theorem isDigit_eq (c : Char) :
    c.isDigit = (decide (48 ≤ c.toNat) && decide (c.toNat ≤ 57)) := by
  simp [Char.isDigit, Char.toNat, UInt32.le_def, BitVec.le_def]
  rfl

theorem isJsSpace_toNat (c : Char) :
    isJsSpace c = true ↔
      c.toNat = 32 ∨ c.toNat = 9 ∨ c.toNat = 10 ∨ c.toNat = 13 ∨
        c.toNat = 11 ∨ c.toNat = 12 := by
  unfold isJsSpace
  simp only [Bool.or_eq_true, decide_eq_true_eq, char_eq_iff,
    show (' ').toNat = 32 from rfl, show ('\t').toNat = 9 from rfl,
    show ('\n').toNat = 10 from rfl, show ('\r').toNat = 13 from rfl,
    show ('\x0b').toNat = 11 from rfl, show ('\x0c').toNat = 12 from rfl]
  tauto

theorem isWordChar_toNat (c : Char) :
    isWordChar c = true ↔
      (65 ≤ c.toNat ∧ c.toNat ≤ 90) ∨ (97 ≤ c.toNat ∧ c.toNat ≤ 122) ∨
        (48 ≤ c.toNat ∧ c.toNat ≤ 57) ∨ c.toNat = 95 := by
  unfold isWordChar
  simp only [Char.isAlpha, isUpper_eq, isLower_eq, isDigit_eq, Bool.or_eq_true,
    Bool.and_eq_true, decide_eq_true_eq, char_eq_iff,
    show ('_').toNat = 95 from rfl]
  tauto

theorem isJsSpace_false (c : Char)
    (h : ¬(c.toNat = 32 ∨ c.toNat = 9 ∨ c.toNat = 10 ∨ c.toNat = 13 ∨
      c.toNat = 11 ∨ c.toNat = 12)) : isJsSpace c = false := by
  cases hb : isJsSpace c
  · rfl
  · exact absurd ((isJsSpace_toNat c).mp hb) h

theorem toUpper_lower (c : Char) (h1 : 97 ≤ c.toNat) (h2 : c.toNat ≤ 122) :
    c.toUpper.toNat = c.toNat - 32 := by
  unfold Char.toUpper
  rw [if_pos ⟨h1, h2⟩]
  exact char_ofNat_toNat _ (by omega)

theorem toUpper_other (c : Char) (h : ¬(97 ≤ c.toNat ∧ c.toNat ≤ 122)) :
    c.toUpper = c := by
  unfold Char.toUpper
  rw [if_neg h]

theorem toUpper_fix (c : Char) : c.toUpper.toUpper = c.toUpper := by
  by_cases h : 97 ≤ c.toNat ∧ c.toNat ≤ 122
  · have ht := toUpper_lower c h.1 h.2
    apply toUpper_other
    omega
  · rw [toUpper_other c h, toUpper_other c h]

theorem isJsSpace_toUpper (c : Char) : isJsSpace c.toUpper = isJsSpace c := by
  by_cases h : 97 ≤ c.toNat ∧ c.toNat ≤ 122
  · have ht := toUpper_lower c h.1 h.2
    rw [isJsSpace_false c.toUpper (by omega), isJsSpace_false c (by omega)]
  · rw [toUpper_other c h]

theorem isWordChar_toUpper (c : Char) (h : isWordChar c = true) :
    isWordChar c.toUpper = true := by
  rcases (isWordChar_toNat c).mp h with h1 | h2 | h3 | h4
  · rw [toUpper_other c (by omega)]; exact h
  · have ht := toUpper_lower c h2.1 h2.2
    exact (isWordChar_toNat _).mpr (Or.inl (by omega))
  · rw [toUpper_other c (by omega)]; exact h
  · rw [toUpper_other c (by omega)]; exact h

theorem isWordChar_not_space (c : Char) (h : isWordChar c = true) :
    isJsSpace c = false := by
  rcases (isWordChar_toNat c).mp h with h1 | h2 | h3 | h4 <;>
    exact isJsSpace_false c (by omega)

theorem toUpper_eq_space (c : Char) (h : c.toUpper = ' ') : c = ' ' := by
  by_cases hc : 97 ≤ c.toNat ∧ c.toNat ≤ 122
  · have ht := toUpper_lower c hc.1 hc.2
    have h32 : c.toUpper.toNat = 32 := by rw [h]; rfl
    omega
  · rwa [toUpper_other c hc] at h

theorem collapseAux_subset :
    ∀ (l : List Char) (prev : Bool) (c : Char), c ∈ collapseAux prev l →
      c = ' ' ∨ (c ∈ l ∧ isJsSpace c = false) := by
  intro l
  induction l with
  | nil =>
    intro prev c h
    rw [collapseAux] at h
    exact absurd h (List.not_mem_nil c)
  | cons x xs ih =>
    intro prev c h
    rw [collapseAux] at h
    by_cases hx : isJsSpace x = true
    · rw [if_pos hx] at h
      cases prev with
      | true =>
        rw [if_pos rfl] at h
        rcases ih true c h with h1 | h2
        · exact Or.inl h1
        · exact Or.inr ⟨List.mem_cons_of_mem x h2.1, h2.2⟩
      | false =>
        rw [if_neg (by simp)] at h
        rcases List.mem_cons.mp h with h1 | h2
        · exact Or.inl h1
        · rcases ih true c h2 with h3 | h4
          · exact Or.inl h3
          · exact Or.inr ⟨List.mem_cons_of_mem x h4.1, h4.2⟩
    · rw [if_neg hx] at h
      rcases List.mem_cons.mp h with h1 | h2
      · subst h1
        exact Or.inr ⟨List.mem_cons_self c xs, by simpa using hx⟩
      · rcases ih false c h2 with h3 | h4
        · exact Or.inl h3
        · exact Or.inr ⟨List.mem_cons_of_mem x h4.1, h4.2⟩

theorem collapseAux_head :
    ∀ (l : List Char) (c : Char), (collapseAux true l).head? = some c →
      isJsSpace c = false := by
  intro l
  induction l with
  | nil =>
    intro c h
    rw [collapseAux] at h
    exact absurd h (by simp)
  | cons x xs ih =>
    intro c h
    rw [collapseAux] at h
    by_cases hx : isJsSpace x = true
    · rw [if_pos hx, if_pos rfl] at h
      exact ih c h
    · rw [if_neg hx, List.head?_cons, Option.some_inj] at h
      rw [← h]
      simpa using hx

theorem collapseAux_chain :
    ∀ (l : List Char) (prev : Bool),
      List.Chain' (fun a b => ¬(a = ' ' ∧ b = ' ')) (collapseAux prev l) := by
  intro l
  induction l with
  | nil =>
    intro prev
    rw [collapseAux]
    exact List.chain'_nil
  | cons x xs ih =>
    intro prev
    rw [collapseAux]
    by_cases hx : isJsSpace x = true
    · rw [if_pos hx]
      cases prev with
      | true =>
        rw [if_pos rfl]
        exact ih true
      | false =>
        rw [if_neg (by simp)]
        rw [List.chain'_cons']
        constructor
        · intro y hy hc
          have hspace := collapseAux_head xs y (Option.mem_def.mp hy)
          rw [hc.2] at hspace
          exact absurd hspace (by decide)
        · exact ih true
    · rw [if_neg hx]
      rw [List.chain'_cons']
      constructor
      · intro y hy hc
        rw [hc.1] at hx
        exact hx (by decide)
      · exact ih false

theorem collapseAux_fixed :
    ∀ (l : List Char) (prev : Bool),
      (∀ c ∈ l, isJsSpace c = true → c = ' ') →
      List.Chain' (fun a b => ¬(a = ' ' ∧ b = ' ')) l →
      (prev = true → ∀ c, l.head? = some c → isJsSpace c = false) →
      collapseAux prev l = l := by
  intro l
  induction l with
  | nil =>
    intro prev _ _ _
    rw [collapseAux]
  | cons x xs ih =>
    intro prev hsp hch hprev
    rw [collapseAux]
    by_cases hx : isJsSpace x = true
    · have hx' : x = ' ' := hsp x (List.mem_cons_self x xs) hx
      rw [if_pos hx]
      cases prev with
      | true => exact absurd hx (by simp [hprev rfl x rfl])
      | false =>
        rw [if_neg (by simp)]
        subst hx'
        congr 1
        apply ih true
        · intro c hc hcsp
          exact hsp c (List.mem_cons_of_mem _ hc) hcsp
        · exact hch.tail
        · intro _ c hc
          have hR := (List.chain'_cons'.mp hch).1 c (Option.mem_def.mpr hc)
          by_cases hcs : isJsSpace c = true
          · have hc' : c = ' ' :=
              hsp c (List.mem_cons_of_mem _ (List.mem_of_mem_head? (Option.mem_def.mpr hc))) hcs
            exact absurd ⟨rfl, hc'⟩ hR
          · simpa using hcs
    · rw [if_neg hx]
      congr 1
      apply ih false
      · intro c hc
        exact hsp c (List.mem_cons_of_mem _ hc)
      · exact hch.tail
      · intro hfalse
        exact absurd hfalse (by simp)

theorem dropWhile_head_spec (p : Char → Bool) :
    ∀ (l : List Char) (c : Char), (l.dropWhile p).head? = some c → p c = false := by
  intro l
  induction l with
  | nil =>
    intro c h
    exact absurd h (by simp)
  | cons x xs ih =>
    intro c h
    rw [List.dropWhile_cons] at h
    by_cases hx : p x = true
    · rw [if_pos hx] at h
      exact ih c h
    · rw [if_neg hx, List.head?_cons, Option.some_inj] at h
      rw [← h]
      simpa using hx

theorem dropWhile_eq_self_of_head (p : Char → Bool) (l : List Char)
    (h : ∀ c, l.head? = some c → p c = false) : l.dropWhile p = l := by
  cases l with
  | nil => rfl
  | cons x xs =>
    rw [List.dropWhile_cons, if_neg (by simp [h x rfl])]

theorem getLast?_dropWhile (p : Char → Bool) (l : List Char) (c : Char)
    (h : (l.dropWhile p).getLast? = some c) : l.getLast? = some c := by
  obtain ⟨a, ha⟩ := List.dropWhile_suffix p (l := l)
  have hne : l.dropWhile p ≠ [] := by
    intro hnil
    rw [hnil] at h
    exact absurd h (by simp)
  rw [← ha, List.getLast?_append_of_ne_nil a hne]
  exact h

theorem jsTrim_last (l : List Char) (c : Char) (h : (jsTrim l).getLast? = some c) :
    isJsSpace c = false := by
  unfold jsTrim at h
  rw [List.getLast?_reverse] at h
  exact dropWhile_head_spec isJsSpace _ c h

theorem jsTrim_head (l : List Char) (c : Char) (h : (jsTrim l).head? = some c) :
    isJsSpace c = false := by
  unfold jsTrim at h
  rw [List.head?_reverse] at h
  have h2 := getLast?_dropWhile isJsSpace _ c h
  rw [List.getLast?_reverse] at h2
  exact dropWhile_head_spec isJsSpace _ c h2

theorem jsTrim_subset (l : List Char) (c : Char) (h : c ∈ jsTrim l) : c ∈ l := by
  unfold jsTrim at h
  rw [List.mem_reverse] at h
  have h2 := (List.dropWhile_sublist isJsSpace).subset h
  rw [List.mem_reverse] at h2
  exact (List.dropWhile_sublist isJsSpace).subset h2

theorem jsTrim_chain (l : List Char)
    (h : List.Chain' (fun a b => ¬(a = ' ' ∧ b = ' ')) l) :
    List.Chain' (fun a b => ¬(a = ' ' ∧ b = ' ')) (jsTrim l) := by
  have hsym : ∀ (x y : Char), (¬(x = ' ' ∧ y = ' ')) → ¬(y = ' ' ∧ x = ' ') :=
    fun x y hxy hc => hxy ⟨hc.2, hc.1⟩
  unfold jsTrim
  have h1 := h.suffix (List.dropWhile_suffix isJsSpace)
  have h2 := (List.chain'_reverse).mpr (h1.imp hsym)
  have h3 := h2.suffix (List.dropWhile_suffix isJsSpace)
  exact (List.chain'_reverse).mpr (h3.imp hsym)

theorem jsTrim_eq_self (l : List Char)
    (hh : ∀ c, l.head? = some c → isJsSpace c = false)
    (hl : ∀ c, l.getLast? = some c → isJsSpace c = false) : jsTrim l = l := by
  unfold jsTrim
  rw [dropWhile_eq_self_of_head isJsSpace l hh]
  rw [dropWhile_eq_self_of_head isJsSpace l.reverse (by
    intro c hc
    rw [List.head?_reverse] at hc
    exact hl c hc)]
  exact List.reverse_reverse l

theorem mem_map_repl (q : List Char) (c : Char)
    (h : c ∈ q.map (fun c =>
      if isWordChar c || isJsSpace c || c = ':' || c = '-' then c else ' ')) :
    (isWordChar c || isJsSpace c || c = ':' || c = '-') = true := by
  rcases List.mem_map.mp h with ⟨d, _, hd⟩
  by_cases hc : (isWordChar d || isJsSpace d || d = ':' || d = '-') = true
  · rw [if_pos hc] at hd
    rw [← hd]
    exact hc
  · rw [if_neg hc] at hd
    rw [← hd]
    decide

theorem cleanTitle_props (q : List Char) :
    (∀ c ∈ cleanTitle q, (isWordChar c || c = ' ' || c = ':' || c = '-') = true) ∧
    (∀ c ∈ cleanTitle q, c.toUpper = c) ∧
    List.Chain' (fun a b => ¬(a = ' ' ∧ b = ' ')) (cleanTitle q) ∧
    (∀ c, (cleanTitle q).head? = some c → isJsSpace c = false) ∧
    (∀ c, (cleanTitle q).getLast? = some c → isJsSpace c = false) := by
  unfold cleanTitle
  by_cases hq : q.isEmpty
  · rw [if_pos hq]
    refine ⟨fun c hc => absurd hc (List.not_mem_nil c),
      fun c hc => absurd hc (List.not_mem_nil c), List.chain'_nil,
      fun c hc => absurd hc (by simp), fun c hc => absurd hc (by simp)⟩
  · rw [if_neg hq]
    have ht_mem : ∀ c ∈ jsTrim (collapseWS (q.map (fun c =>
        if isWordChar c || isJsSpace c || c = ':' || c = '-' then c else ' '))),
        c = ' ' ∨ ((isWordChar c || c = ':' || c = '-') = true ∧ isJsSpace c = false) := by
      intro c hc
      rcases collapseAux_subset _ false c (jsTrim_subset _ c hc) with h1 | h2
      · exact Or.inl h1
      · right
        refine ⟨?_, h2.2⟩
        have hall := mem_map_repl q c h2.1
        simpa [h2.2] using hall
    have ht_chain := jsTrim_chain _ (collapseAux_chain (q.map (fun c =>
      if isWordChar c || isJsSpace c || c = ':' || c = '-' then c else ' ')) false)
    refine ⟨?_, ?_, ?_, ?_, ?_⟩
    · intro c hc
      rcases List.mem_map.mp hc with ⟨d, hd, hdc⟩
      rcases ht_mem d hd with h1 | h2
      · rw [← hdc, h1]
        decide
      · rw [← hdc]
        by_cases hw : isWordChar d = true
        · simp [isWordChar_toUpper d hw]
        · have h3 : (d = ':' || d = '-') = true := by simpa [hw] using h2.1
          rcases Bool.or_eq_true _ _ |>.mp h3 with h4 | h5
          · rw [decide_eq_true_eq] at h4
            subst h4
            decide
          · rw [decide_eq_true_eq] at h5
            subst h5
            decide
    · intro c hc
      rcases List.mem_map.mp hc with ⟨d, _, hdc⟩
      rw [← hdc]
      exact toUpper_fix d
    · rw [show ∀ u, jsToUpper u = u.map Char.toUpper from fun u => rfl]
      rw [List.chain'_map]
      refine ht_chain.imp ?_
      intro a b hab hc
      exact hab ⟨toUpper_eq_space a hc.1, toUpper_eq_space b hc.2⟩
    · intro c hc
      rw [show ∀ u, jsToUpper u = u.map Char.toUpper from fun u => rfl,
        List.head?_map] at hc
      cases hh : (jsTrim (collapseWS (q.map (fun c =>
          if isWordChar c || isJsSpace c || c = ':' || c = '-' then c else ' ')))).head? with
      | none =>
        rw [hh] at hc
        exact absurd hc (by simp)
      | some d =>
        rw [hh] at hc
        simp at hc
        rw [← hc, isJsSpace_toUpper]
        exact jsTrim_head _ d hh
    · intro c hc
      rw [show ∀ u, jsToUpper u = u.map Char.toUpper from fun u => rfl,
        List.getLast?_map] at hc
      cases hh : (jsTrim (collapseWS (q.map (fun c =>
          if isWordChar c || isJsSpace c || c = ':' || c = '-' then c else ' ')))).getLast? with
      | none =>
        rw [hh] at hc
        exact absurd hc (by simp)
      | some d =>
        rw [hh] at hc
        simp at hc
        rw [← hc, isJsSpace_toUpper]
        exact jsTrim_last _ d hh

theorem cleanTitle_idem (q : List Char) : cleanTitle (cleanTitle q) = cleanTitle q := by
  obtain ⟨hcs, hup, hch, hhd, hlast⟩ := cleanTitle_props q
  by_cases hq : (cleanTitle q).isEmpty
  · rw [List.isEmpty_iff] at hq
    rw [hq]
    rfl
  · conv_lhs => rw [cleanTitle]
    rw [if_neg hq]
    have h1 : (cleanTitle q).map (fun c =>
        if isWordChar c || isJsSpace c || c = ':' || c = '-' then c else ' ') = cleanTitle q := by
      have hfix : ∀ c ∈ cleanTitle q, (fun c =>
          if isWordChar c || isJsSpace c || c = ':' || c = '-' then c else ' ') c = id c := by
        intro c hc
        show (if isWordChar c || isJsSpace c || c = ':' || c = '-' then c else ' ') = c
        have h := hcs c hc
        by_cases hw : isWordChar c = true
        · rw [if_pos (by simp [hw])]
        · have h3 : (c = ' ' || c = ':' || c = '-') = true := by simpa [hw] using h
          rcases Bool.or_eq_true _ _ |>.mp h3 with h4 | h5
          · rcases Bool.or_eq_true _ _ |>.mp h4 with h6 | h7
            · rw [decide_eq_true_eq] at h6
              subst h6
              decide
            · rw [decide_eq_true_eq] at h7
              subst h7
              decide
          · rw [decide_eq_true_eq] at h5
            subst h5
            decide
      rw [List.map_congr_left hfix, List.map_id]
    rw [h1]
    have h2 : collapseWS (cleanTitle q) = cleanTitle q := by
      apply collapseAux_fixed
      · intro c hc hcsp
        have h := hcs c hc
        by_cases hw : isWordChar c = true
        · exact absurd hcsp (by simp [isWordChar_not_space c hw])
        · have h3 : (c = ' ' || c = ':' || c = '-') = true := by simpa [hw] using h
          rcases Bool.or_eq_true _ _ |>.mp h3 with h4 | h5
          · rcases Bool.or_eq_true _ _ |>.mp h4 with h6 | h7
            · rw [decide_eq_true_eq] at h6
              exact h6
            · rw [decide_eq_true_eq] at h7
              subst h7
              exact absurd hcsp (by decide)
          · rw [decide_eq_true_eq] at h5
            subst h5
            exact absurd hcsp (by decide)
      · exact hch
      · intro hfalse
        exact absurd hfalse (by simp)
    rw [h2]
    rw [jsTrim_eq_self _ hhd hlast]
    show (cleanTitle q).map Char.toUpper = cleanTitle q
    have hfix2 : ∀ c ∈ cleanTitle q, Char.toUpper c = id c := fun c hc => hup c hc
    rw [List.map_congr_left hfix2, List.map_id]

/-- C10: `cleanTitle` is idempotent, and its output contains only word
    characters, spaces, colons and hyphens, is uppercase (every character is
    fixed by `toUpper`), has no two adjacent spaces (whitespace runs were
    collapsed to single spaces), and has no leading or trailing
    whitespace. -/
theorem claim_C10_clean_title (q : List Char) :
    cleanTitle (cleanTitle q) = cleanTitle q ∧
    (∀ c ∈ cleanTitle q, (isWordChar c || c = ' ' || c = ':' || c = '-') = true) ∧
    (∀ c ∈ cleanTitle q, c.toUpper = c) ∧
    List.Chain' (fun a b => ¬(a = ' ' ∧ b = ' ')) (cleanTitle q) ∧
    (∀ c, (cleanTitle q).head? = some c → isJsSpace c = false) ∧
    (∀ c, (cleanTitle q).getLast? = some c → isJsSpace c = false) := by
  obtain ⟨h1, h2, h3, h4, h5⟩ := cleanTitle_props q
  exact ⟨cleanTitle_idem q, h1, h2, h3, h4, h5⟩

/-- C10 witness: the membership and head hypotheses discharged on the
    input `"a!b"`, whose cleaned form is `"A B"`. -/
theorem claim_C10_clean_title_witness :
    'A' ∈ cleanTitle ['a','!','b'] ∧
    (isWordChar 'A' || 'A' = ' ' || 'A' = ':' || 'A' = '-') = true ∧
    (cleanTitle ['a','!','b']).head? = some 'A' ∧ isJsSpace 'A' = false :=
  ⟨by decide, (claim_C10_clean_title ['a','!','b']).2.1 'A' (by decide), by decide,
    (claim_C10_clean_title ['a','!','b']).2.2.2.2.1 'A' (by decide)⟩
